import Mathlib

/-!
Verification development for the tun2proxy flow-multiplexed event engine
(`src/tun2proxy.rs`).  The Rust data model and the engine operations are
shallowly embedded: hash maps become association lists with replace-on-insert
semantics, machine integers become `Nat`, fallible operations return
`Except String`, and external I/O outcomes (bytes read from the proxy stream,
results of non-blocking writes, the embedded TCP socket's observable
behaviour) are passed in explicitly as oracle parameters.  Side effects on
the proxy stream and on embedded sockets (shutdown, close) are recorded in
event logs inside the engine state.
-/

set_option maxRecDepth 4000

namespace T2P

/-- IP address, IPv4 as four bytes, IPv6 as its 16-byte list
(mirrors `std::net::IpAddr` to the extent the engine observes it). -/
inductive IpAddr where
  | v4 (b0 b1 b2 b3 : Nat)
  | v6 (bytes : List Nat)
deriving DecidableEq

/-- Transport protocol discriminant (smoltcp `IpProtocol`):
TCP, UDP, or an unknown protocol number. -/
inductive IpProtocol where
  | tcp
  | udp
  | other (n : Nat)
deriving DecidableEq

/-- smoltcp `IpProtocol::from(u8)`: 6 is TCP, 17 is UDP. -/
def protoOfNat (n : Nat) : IpProtocol :=
  if n = 6 then .tcp else if n = 17 then .udp else .other n

/-- `std::net::SocketAddr`: an IP address plus a port. -/
structure SocketAddr where
  ip : IpAddr
  port : Nat
deriving DecidableEq

/-- `DestinationHost` from `src/tun2proxy.rs`: a literal address or a hostname. -/
inductive DestinationHost where
  | Address (a : IpAddr)
  | Hostname (n : String)
deriving DecidableEq

/-- `Destination` from `src/tun2proxy.rs`. -/
structure Destination where
  host : DestinationHost
  port : Nat
deriving DecidableEq

/-- `impl TryFrom<Destination> for SocketAddr`: succeeds on a literal address,
fails on a hostname; the `Error` is modelled by its hostname payload. -/
def SocketAddr.try_from (value : Destination) : Except String SocketAddr :=
  match value.host with
  | .Address addr => .ok ⟨addr, value.port⟩
  | .Hostname e => .error e

/-- `impl From<SocketAddr> for Destination`. -/
def Destination.ofSocketAddr (addr : SocketAddr) : Destination :=
  ⟨.Address addr.ip, addr.port⟩

/-- `Connection` from `src/tun2proxy.rs`: the flow key. -/
structure Connection where
  src : SocketAddr
  dst : Destination
  proto : IpProtocol
deriving DecidableEq

/-- `Connection::to_named`: replace the destination host by a hostname. -/
def Connection.to_named (c : Connection) (name : String) : Connection :=
  { c with dst := { c.dst with host := .Hostname name } }

/-! ## Packet parsing (`get_transport_info`, `connection_tuple`)

Frames are byte lists.  The length/field checks reproduce smoltcp's
`new_checked` (= `check_len`) conditions for `Ipv4Packet`, `Ipv6Packet`,
`UdpPacket` and `TcpPacket`, which is what `new_checked` verifies before the
accessors used by the source can be called. -/

/-- Byte `i` of a frame (reads in the model are always guarded by the
length checks, so the default is never produced on a `some` result). -/
def getB (l : List Nat) (i : Nat) : Nat := l.getD i 0

/-- Big-endian 16-bit field. -/
def byte2 (hi lo : Nat) : Nat := 256 * hi + lo

/-- UDP branch of `get_transport_info`: smoltcp `UdpPacket::new_checked`
requires at least 8 bytes, a length field of at least 8, and a buffer at
least as long as the length field; on success the source returns the ports,
`first_packet = false`, payload offset `transport_offset + 8` and payload
size `packet.len() - 8`. -/
def udpTransportInfo (transport_offset : Nat) (packet : List Nat) :
    Option ((Nat × Nat) × Bool × Nat × Nat) :=
  if packet.length < 8 then none
  else
    let flen := byte2 (getB packet 4) (getB packet 5)
    if packet.length < flen ∨ flen < 8 then none
    else
      some ((byte2 (getB packet 0) (getB packet 1),
             byte2 (getB packet 2) (getB packet 3)),
            false, transport_offset + 8, packet.length - 8)

/-- TCP branch of `get_transport_info`: smoltcp `TcpPacket::new_checked`
requires at least 20 bytes, a data-offset-derived header length of at least
20 and not exceeding the buffer; the source returns the ports,
`syn && !ack`, payload offset `transport_offset + header_len`, and size
`packet.len()`. -/
def tcpTransportInfo (transport_offset : Nat) (packet : List Nat) :
    Option ((Nat × Nat) × Bool × Nat × Nat) :=
  if packet.length < 20 then none
  else
    let hl := getB packet 12 / 16 * 4
    if packet.length < hl ∨ hl < 20 then none
    else
      let flags := getB packet 13
      let syn : Bool := flags / 2 % 2 == 1
      let ack : Bool := flags / 16 % 2 == 1
      some ((byte2 (getB packet 0) (getB packet 1),
             byte2 (getB packet 2) (getB packet 3)),
            syn && !ack, transport_offset + hl, packet.length)

/-- `get_transport_info` from `src/tun2proxy.rs`. -/
def get_transport_info (proto : IpProtocol) (transport_offset : Nat)
    (packet : List Nat) : Option ((Nat × Nat) × Bool × Nat × Nat) :=
  match proto with
  | .udp => udpTransportInfo transport_offset packet
  | .tcp => tcpTransportInfo transport_offset packet
  | .other _ => none

/-- smoltcp `Ipv4Packet::new_checked` plus the accessors the source uses:
requires length at least 20, at least `header_len = ihl * 4`, a total-length
field at least `header_len` and not exceeding the buffer.  Yields the header
length, protocol, and source/destination addresses. -/
def ipv4Header (frame : List Nat) : Option (Nat × IpProtocol × IpAddr × IpAddr) :=
  if frame.length < 20 then none
  else
    let hl := getB frame 0 % 16 * 4
    let tl := byte2 (getB frame 2) (getB frame 3)
    if frame.length < hl ∨ tl < hl ∨ frame.length < tl then none
    else
      some (hl, protoOfNat (getB frame 9),
        .v4 (getB frame 12) (getB frame 13) (getB frame 14) (getB frame 15),
        .v4 (getB frame 16) (getB frame 17) (getB frame 18) (getB frame 19))

/-- smoltcp `Ipv6Packet::new_checked` plus the accessors the source uses:
requires length at least 40 and at least `40 + payload_len`; the header
length is the constant 40 and the next-header byte is at offset 6. -/
def ipv6Header (frame : List Nat) : Option (Nat × IpProtocol × IpAddr × IpAddr) :=
  if frame.length < 40 then none
  else
    let pl := byte2 (getB frame 4) (getB frame 5)
    if frame.length < 40 + pl then none
    else
      some (40, protoOfNat (getB frame 6),
        .v6 ((frame.drop 8).take 16), .v6 ((frame.drop 24).take 16))

/-- `connection_tuple` from `src/tun2proxy.rs`: try IPv4 first (returning
even when the transport parse fails, exactly as the source's early `return`
does), otherwise try IPv6. -/
def connection_tuple (frame : List Nat) : Option (Connection × Bool × Nat × Nat) :=
  match ipv4Header frame with
  | some (hl, proto, s, d) =>
    match get_transport_info proto hl (frame.drop hl) with
    | some (ports, fp, off, sz) =>
      some ({ src := ⟨s, ports.1⟩, dst := Destination.ofSocketAddr ⟨d, ports.2⟩,
              proto := proto }, fp, off, sz)
    | none => none
  | none =>
    match ipv6Header frame with
    | some (hl, proto, s, d) =>
      match get_transport_info proto hl (frame.drop hl) with
      | some (ports, fp, off, sz) =>
        some ({ src := ⟨s, ports.1⟩, dst := Destination.ofSocketAddr ⟨d, ports.2⟩,
                proto := proto }, fp, off, sz)
      | none => none
    | none => none

/-! ## Association lists with hash-map semantics

`HashMap` keys are unique; insertion replaces, removal deletes the binding.
Modelled by association lists whose erase removes every binding of the key,
so the operations agree with `HashMap` on every list. -/

section Alist

variable {K V : Type} [DecidableEq K]

/-- Lookup of the first binding of a key (`HashMap::get`). -/
def alookup : List (K × V) → K → Option V
  | [], _ => none
  | p :: rest, k => if k = p.1 then some p.2 else alookup rest k

/-- Remove all bindings of a key (`HashMap::remove` on unique-key maps). -/
def eraseKey (k : K) (l : List (K × V)) : List (K × V) :=
  l.filter fun p => !(p.1 = k : Bool)

/-- Replace-on-insert (`HashMap::insert`). -/
def insertKey (k : K) (v : V) (l : List (K × V)) : List (K × V) :=
  (k, v) :: eraseKey k l

theorem eraseKey_cons (k : K) (p : K × V) (rest : List (K × V)) :
    eraseKey k (p :: rest) =
      if p.1 = k then eraseKey k rest else p :: eraseKey k rest := by
  by_cases h : p.1 = k <;> simp [eraseKey, List.filter_cons, h]

theorem alookup_eraseKey_self (k : K) (l : List (K × V)) :
    alookup (eraseKey k l) k = none := by
  induction l with
  | nil => rfl
  | cons p rest ih =>
    rw [eraseKey_cons]
    by_cases h : p.1 = k
    · simpa [h] using ih
    · rw [if_neg h]
      show alookup (p :: eraseKey k rest) k = none
      rw [alookup, if_neg fun hh => h hh.symm, ih]

theorem alookup_eraseKey_ne {k k1 : K} (h : k1 ≠ k) (l : List (K × V)) :
    alookup (eraseKey k l) k1 = alookup l k1 := by
  induction l with
  | nil => rfl
  | cons p rest ih =>
    rw [eraseKey_cons]
    by_cases hp : p.1 = k
    · have hk1 : ¬(k1 = p.1) := fun hh => h (hp ▸ hh)
      rw [if_pos hp, ih]
      conv_rhs => rw [alookup, if_neg hk1]
    · rw [if_neg hp]
      show alookup (p :: eraseKey k rest) k1 = alookup (p :: rest) k1
      by_cases hk : k1 = p.1
      · rw [alookup, if_pos hk, alookup, if_pos hk]
      · rw [alookup, if_neg hk, alookup, if_neg hk, ih]

theorem alookup_insertKey_self (k : K) (v : V) (l : List (K × V)) :
    alookup (insertKey k v l) k = some v := by
  simp [insertKey, alookup]

theorem alookup_insertKey_ne {k k1 : K} (h : k1 ≠ k) (v : V) (l : List (K × V)) :
    alookup (insertKey k v l) k1 = alookup l k1 := by
  show alookup ((k, v) :: eraseKey k l) k1 = alookup l k1
  rw [alookup, if_neg h, alookup_eraseKey_ne h]

theorem mem_eraseKey {p : K × V} {k : K} {l : List (K × V)} :
    p ∈ eraseKey k l ↔ p ∈ l ∧ p.1 ≠ k := by
  simp [eraseKey, List.mem_filter]

theorem alookup_mem {l : List (K × V)} {k : K} {v : V}
    (h : alookup l k = some v) : (k, v) ∈ l := by
  induction l with
  | nil => simp [alookup] at h
  | cons p rest ih =>
    by_cases hk : k = p.1
    · rw [alookup, if_pos hk] at h
      obtain ⟨k1, v1⟩ := p
      simp only at hk h
      subst hk
      cases h
      exact List.mem_cons_self _ _
    · rw [alookup, if_neg hk] at h
      exact List.mem_cons_of_mem _ (ih h)

end Alist

/-- Membership-set insert (`HashSet::insert`). -/
def insertNat (n : Nat) (l : List Nat) : List Nat :=
  if n ∈ l then l else n :: l

/-- Membership-set remove (`HashSet::remove`). -/
def eraseNat (n : Nat) (l : List Nat) : List Nat :=
  l.filter fun m => !(m = n : Bool)

/-! ## The engine data model -/

/-- `IncomingDirection`. -/
inductive IncomingDirection where
  | fromServer
  | fromClient
deriving DecidableEq

/-- `OutgoingDirection`. -/
inductive OutgoingDirection where
  | toServer
  | toClient
deriving DecidableEq

/-- `Direction`. -/
inductive Direction where
  | incoming (d : IncomingDirection)
  | outgoing (d : OutgoingDirection)
deriving DecidableEq

/-- `SERVER_WRITE_CLOSED`. -/
def SERVER_WRITE_CLOSED : Nat := 1

/-- `CLIENT_WRITE_CLOSED`. -/
def CLIENT_WRITE_CLOSED : Nat := 2

/-- `TUN_TOKEN`. -/
def TUN_TOKEN : Nat := 0

/-- `UDP_TOKEN`. -/
def UDP_TOKEN : Nat := 1

/-- `EXIT_TOKEN`. -/
def EXIT_TOKEN : Nat := 2

/-- The `dyn TcpProxy` capability set: handlers are values of an arbitrary
type `H`, their trait methods a record of pure functions (`push_data`
returns the updated handler or the handler error). -/
structure TcpProxyOps (H : Type) where
  push_data : H → IncomingDirection → List Nat → Except String H
  consume_data : H → OutgoingDirection → Nat → H
  peek_data : H → OutgoingDirection → List Nat
  have_data : H → Direction → Bool
  connection_established : H → Bool

/-- The `dyn ConnectionManager` capability set, as observed by the engine
(the advisory `close_connection` and `get_credentials` hooks are never
called from `src/tun2proxy.rs` and are omitted). -/
structure ConnectionManagerOps (H : Type) where
  handles_connection : Connection → Bool
  new_connection : Connection → Except String (Option H)
  get_server : SocketAddr

/-- The virtual DNS as the engine observes it in `receive_tun`;
`touch_ip` only refreshes a timestamp and is modelled as a no-op.
Modelled from the spec: the `VirtualDns` implementation is outside
`src/`, so only its `resolve_ip` / `receive_query` contract (spec §4.2)
is represented. -/
structure VDns where
  resolve_ip : IpAddr → Option String
  receive_query : List Nat → Option (List Nat)

/-- `ConnectionState`: the per-flow record.  The real `TcpStream` is
identified by a stream id; its I/O side effects are recorded in the
engine's event logs. -/
structure ConnectionState (H : Type) where
  smoltcp_handle : Nat
  mio_stream : Nat
  token : Nat
  handler : H
  close_state : Nat
  wait_read : Bool
  wait_write : Bool
deriving DecidableEq

/-- The engine (`TunToProxy`) bookkeeping state.  `sockets` is the set of
live smoltcp handles; `registered` the reactor registrations
token ↦ (readable, writable); the trailing lists are event logs recording
irreversible external effects (socket closes, stream shutdowns, proxy
connects). -/
structure Engine (H : Type) where
  connections : List (Connection × ConnectionState H)
  managers : List (ConnectionManagerOps H)
  next_token : Nat
  token_to_connection : List (Nat × Connection)
  sockets : List Nat
  next_stream : Nat
  write_sockets : List Nat
  virtdns : Option VDns
  closed_sockets : List Nat
  shutdown_write : List Nat
  shutdown_both : List Nat
  connect_log : List SocketAddr
  registered : List (Nat × Bool × Bool)

variable {H : Type}

/-- `TunToProxy::new` bookkeeping initialisation: empty tables and
`next_token = usize::from(EXIT_TOKEN) + 1`. -/
def initialEngine (mgrs : List (ConnectionManagerOps H)) (vd : Option VDns) :
    Engine H :=
  { connections := [], managers := mgrs, next_token := EXIT_TOKEN + 1,
    token_to_connection := [], sockets := [], next_stream := 0,
    write_sockets := [], virtdns := vd, closed_sockets := [],
    shutdown_write := [], shutdown_both := [], connect_log := [],
    registered := [] }

/-- `TunToProxy::new_token`: hand out the counter value and increment it. -/
def new_token (e : Engine H) : Nat × Engine H :=
  (e.next_token, { e with next_token := e.next_token + 1 })

/-- smoltcp `SocketSet::add` handle choice: the first vacant slot index. -/
def freshHandle (l : List Nat) : Nat :=
  ((List.range (l.length + 1)).find? fun n => !(n ∈ l : Bool)).getD l.length

/-- `TunToProxy::remove_connection`: if the flow is tracked, drop it from
the flow table, drop its token from the index, its handle from the socket
set, and deregister its stream (the source always returns `Ok`). -/
def remove_connection (e : Engine H) (connection : Connection) : Engine H :=
  match alookup e.connections connection with
  | none => e
  | some conn =>
    { e with connections := eraseKey connection e.connections,
             token_to_connection := eraseKey conn.token e.token_to_connection,
             sockets := eraseNat conn.smoltcp_handle e.sockets,
             registered := eraseKey conn.token e.registered }

/-- `TunToProxy::get_connection_manager`: first manager whose
`handles_connection` accepts the key. -/
def get_connection_manager (e : Engine H) (connection : Connection) :
    Option (ConnectionManagerOps H) :=
  match e.managers with
  | [] => none
  | _ :: _ => go e.managers connection
where
  /-- The source's `for` loop over the registered managers. -/
  go : List (ConnectionManagerOps H) → Connection → Option (ConnectionManagerOps H)
    | [], _ => none
    | m :: rest, c => if m.handles_connection c then some m else go rest c

/-- The first close condition of `check_change_close_state`:
`SERVER_WRITE_CLOSED` set and no `FromServer` and no `ToClient` data. -/
def serverCloseReady (ops : TcpProxyOps H) (st : ConnectionState H) : Bool :=
  (st.close_state &&& SERVER_WRITE_CLOSED == SERVER_WRITE_CLOSED)
    && !ops.have_data st.handler (.incoming .fromServer)
    && !ops.have_data st.handler (.outgoing .toClient)

/-- The second close condition of `check_change_close_state`:
`CLIENT_WRITE_CLOSED` set and no `FromClient` and no `ToServer` data. -/
def clientCloseReady (ops : TcpProxyOps H) (st : ConnectionState H) : Bool :=
  (st.close_state &&& CLIENT_WRITE_CLOSED == CLIENT_WRITE_CLOSED)
    && !ops.have_data st.handler (.incoming .fromClient)
    && !ops.have_data st.handler (.outgoing .toServer)

/-- `TunToProxy::check_change_close_state`: close the embedded socket when
the server side is drained, shut down the proxy stream's write side when
the client side is drained, and remove the flow when both closes fired
(`closed_ends == 2`).  The source always returns `Ok`. -/
def check_change_close_state (ops : TcpProxyOps H) (e : Engine H)
    (connection : Connection) : Engine H :=
  match alookup e.connections connection with
  | none => e
  | some st =>
    let e1 := if serverCloseReady ops st then
        { e with closed_sockets := e.closed_sockets ++ [st.smoltcp_handle] }
      else e
    let e2 := if clientCloseReady ops st then
        { e1 with shutdown_write := e1.shutdown_write ++ [st.mio_stream] }
      else e1
    if serverCloseReady ops st && clientCloseReady ops st then
      remove_connection e2 connection
    else e2

/-- `TunToProxy::update_mio_socket_interest`: deregister (errors swallowed),
then re-register with the current wait bits unless both are clear.  Errors
if the flow is untracked (`ok_or("connection not found")?`). -/
def update_mio_socket_interest (e : Engine H) (connection : Connection) :
    Except String (Engine H) :=
  match alookup e.connections connection with
  | none => .error "connection not found"
  | some st =>
    let e1 := { e with registered := eraseKey st.token e.registered }
    if !st.wait_read && !st.wait_write then .ok e1
    else
      .ok { e1 with
            registered := insertKey st.token (st.wait_read, st.wait_write)
              e1.registered }

/-! ## I/O oracles

Outcomes of external, non-deterministic steps (kernel socket I/O, the
embedded TCP socket's observable behaviour) are inputs of the model. -/

/-- Outcome of the non-blocking `state.mio_stream.write`. -/
inductive WriteResult where
  | written (n : Nat)
  | wouldBlock
  | ioError (msg : String)

/-- smoltcp `tcp::State` as far as `tunsocket_read_and_forward` inspects
it (the three handshake states are distinguished, all others collapsed). -/
inductive TcpState where
  | listen
  | synSent
  | synReceived
  | otherState
deriving DecidableEq

/-- Oracle for one `receive_tun` call: the chunks the embedded socket
yields to `recv`, its `may_recv`/`state()` observations afterwards, and
the proxy-stream write outcome for the trailing `write_to_server`. -/
structure TunOracle where
  chunks : List (List Nat)
  may_recv : Bool
  tcp_state : TcpState
  write_result : WriteResult

/-- One iteration of the `write_to_client` loop: whether the embedded
socket `may_send`, and how many bytes `send_slice` would accept. -/
structure WtcStep where
  may_send : Bool
  capacity : Nat

/-- Oracle for one `mio_socket_event` call. -/
structure MioOracle where
  readable : Bool
  read_closed : Bool
  writable : Bool
  data : List Nat
  wtc_steps : List WtcStep
  write_result1 : WriteResult
  write_result2 : WriteResult

/-! ## Engine operations -/

variable {H : Type}

/-- The `while socket.can_recv() && error.is_ok()` loop of
`tunsocket_read_and_forward`: push each available chunk as `FromClient`,
stopping at the first handler error (the source never propagates that
error; the model keeps the last successfully updated handler). -/
def pushChunks (ops : TcpProxyOps H) (h : H) : List (List Nat) → H
  | [] => h
  | c :: rest =>
    match ops.push_data h .fromClient c with
    | .error _ => h
    | .ok h1 => pushChunks ops h1 rest

/-- Replace the flow-table entry of a connection (the effect of the
source's in-place mutation of `state` through `get_mut`). -/
def setConn (e : Engine H) (c : Connection) (st1 : ConnectionState H) :
    Engine H :=
  { e with connections := insertKey c st1 e.connections }

/-- The per-entry effect of `tunsocket_read_and_forward`: the handler
absorbs the drained chunks, and `CLIENT_WRITE_CLOSED` is set when the
embedded socket can no longer receive and is past the handshake states. -/
def tunsocketStep (ops : TcpProxyOps H) (o : TunOracle)
    (st : ConnectionState H) : ConnectionState H :=
  { st with
    handler := pushChunks ops st.handler o.chunks,
    close_state :=
      if !o.may_recv && !(o.tcp_state == .listen) && !(o.tcp_state == .synSent)
          && !(o.tcp_state == .synReceived) then
        st.close_state ||| CLIENT_WRITE_CLOSED
      else st.close_state }

/-- `TunToProxy::tunsocket_read_and_forward`: drain the embedded socket
into the handler, set `CLIENT_WRITE_CLOSED` when the socket can no longer
receive and is past the handshake states, flush the stack (external), and
re-evaluate the close state. -/
def tunsocket_read_and_forward (ops : TcpProxyOps H) (o : TunOracle)
    (e : Engine H) (connection : Connection) : Engine H :=
  match alookup e.connections connection with
  | none => e
  | some st =>
    check_change_close_state ops (setConn e connection (tunsocketStep ops o st))
      connection

/-- `TunToProxy::write_to_server`: peek the client→server buffer; empty
buffer clears wait-for-writable; a successful write consumes and sets
wait-for-writable iff partial; would-block sets wait-for-writable; any
other I/O error is returned to the caller before any state change.  In
all non-error paths the reactor interest is updated and the close state
re-evaluated. -/
def write_to_server (ops : TcpProxyOps H) (wr : WriteResult) (e : Engine H)
    (connection : Connection) : Except String (Engine H) :=
  match alookup e.connections connection with
  | none => .ok (check_change_close_state ops e connection)
  | some st =>
    let buffer := ops.peek_data st.handler .toServer
    if buffer.length = 0 then
      let st1 := { st with wait_write := false }
      let e1 := { e with connections := insertKey connection st1 e.connections }
      match update_mio_socket_interest e1 connection with
      | .error s => .error s
      | .ok e2 => .ok (check_change_close_state ops e2 connection)
    else
      match wr with
      | .written n =>
        let st1 := { st with handler := ops.consume_data st.handler .toServer n,
                             wait_write := decide (n < buffer.length) }
        let e1 := { e with connections := insertKey connection st1 e.connections }
        match update_mio_socket_interest e1 connection with
        | .error s => .error s
        | .ok e2 => .ok (check_change_close_state ops e2 connection)
      | .wouldBlock =>
        let st1 := { st with wait_write := true }
        let e1 := { e with connections := insertKey connection st1 e.connections }
        match update_mio_socket_interest e1 connection with
        | .error s => .error s
        | .ok e2 => .ok (check_change_close_state ops e2 connection)
      | .ioError msg => .error msg

/-- The `for manager in self.connection_managers` creation loop inside
`receive_tun`: the first manager whose `new_connection` yields a handler
wins; a `new_connection` error propagates.  On success: embedded socket
created and set to listen on the original destination (smoltcp `listen`
fails exactly on port 0, the socket being freshly closed), handle added,
proxy stream connected (non-blocking connect modelled as succeeding, the
server endpoint logged), token minted, token index and reactor updated,
flow recorded. -/
def createLoop (mgrs : List (ConnectionManagerOps H)) (resolved : Connection)
    (dst : Destination) (server : SocketAddr) (e : Engine H) :
    Except String (Engine H) :=
  match mgrs with
  | [] => .ok e
  | m :: rest =>
    match m.new_connection resolved with
    | .error s => .error s
    | .ok none => createLoop rest resolved dst server e
    | .ok (some handler) =>
      match SocketAddr.try_from dst with
      | .error s => .error s
      | .ok dsa =>
        if dsa.port = 0 then .error "listen error"
        else
          let handle := freshHandle e.sockets
          let e1 := { e with sockets := handle :: e.sockets }
          let stream := e1.next_stream
          let e2 := { e1 with next_stream := stream + 1,
                              connect_log := e1.connect_log ++ [server] }
          let te := new_token e2
          let st : ConnectionState H :=
            { smoltcp_handle := handle, mio_stream := stream, token := te.1,
              handler := handler, close_state := 0, wait_read := true,
              wait_write := false }
          let e4 := { te.2 with token_to_connection :=
                        insertKey te.1 resolved te.2.token_to_connection }
          let e5 := { e4 with registered :=
                        insertKey te.1 (true, false) e4.registered }
          .ok { e5 with connections := insertKey resolved st e5.connections }

/-- Tail of `receive_tun`'s TCP branch after the flow-table bookkeeping:
inject the frame, flush the stack (both external), read-and-forward, then
write toward the proxy; a `write_to_server` error is logged by the
`or_else` and the state at the failure point kept. -/
def postInject (ops : TcpProxyOps H) (o : TunOracle) (e : Engine H)
    (resolved : Connection) : Engine H :=
  let e1 := tunsocket_read_and_forward ops o e resolved
  match write_to_server ops o.write_result e1 resolved with
  | .error _ => e1
  | .ok e2 => e2

/-- The virtual-DNS resolution step at the top of `receive_tun`: on an
address destination, `touch_ip` (timestamp only, no modelled effect) and
replace the host by the reverse-mapped name when one exists.  The
`SocketAddr::try_from` failure propagates out of `receive_tun`. -/
def resolveConn (e : Engine H) (connection : Connection) :
    Except String Connection :=
  match e.virtdns with
  | none => .ok connection
  | some vd =>
    match SocketAddr.try_from connection.dst with
    | .error s => .error s
    | .ok sa =>
      match vd.resolve_ip sa.ip with
      | none => .ok connection
      | some name => .ok (connection.to_named name)

/-- The UDP/53 branch of `receive_tun`: offer the payload slice to the
virtual DNS; on a reply, bind a transient embedded UDP socket to the
original destination (port 53, hence never 0), send the reply, flush, and
drop the socket again. -/
def udpPath (e : Engine H) (dst : Destination) (frame : List Nat)
    (payload_offset payload_size : Nat) : Engine H :=
  match e.virtdns with
  | none => e
  | some vd =>
    let payload := (frame.drop payload_offset).take payload_size
    match vd.receive_query payload with
    | none => e
    | some _response =>
      match SocketAddr.try_from dst with
      | .error _ => e
      | .ok dsa =>
        if dsa.port = 0 then e
        else
          let handle := freshHandle e.sockets
          let e1 := { e with sockets := handle :: e.sockets }
          { e1 with sockets := eraseNat handle e1.sockets }

/-- `TunToProxy::receive_tun`.  Parse the frame; resolve the key through
the virtual DNS; on TCP find the claiming manager (drop if none), create
the flow on a SYN-without-ACK (the source does not check whether the
5-tuple is already tracked), drop unknown non-SYN segments, and process
the packet; on UDP/53 answer through the virtual DNS.  Errors inside the
source's inner closure are logged and swallowed, keeping the state reached
at the failure point. -/
def receive_tun (ops : TcpProxyOps H) (o : TunOracle) (e : Engine H)
    (frame : List Nat) : Except String (Engine H) :=
  match connection_tuple frame with
  | none => .ok e
  | some (connection, first_packet, payload_offset, payload_size) =>
    match resolveConn e connection with
    | .error s => .error s
    | .ok resolved =>
      let dst := connection.dst
      if resolved.proto = .tcp then
        match get_connection_manager e resolved with
        | none => .ok e
        | some cm =>
          let server := cm.get_server
          if first_packet then
            match createLoop e.managers resolved dst server e with
            | .error _ => .ok e
            | .ok e1 => .ok (postInject ops o e1 resolved)
          else
            if (alookup e.connections resolved).isSome then
              .ok (postInject ops o e resolved)
            else .ok e
      else
        if resolved.proto = .udp ∧ resolved.dst.port = 53 then
          .ok (udpPath e dst frame payload_offset payload_size)
        else .ok e

/-- `TunToProxy::write_to_client`: loop peeking the server→client buffer
into the embedded socket while it `may_send`; a partial send records the
token in the write-wait set and breaks, a full send removes it (breaking
on zero bytes); the close state is re-evaluated after each completed
iteration.  The oracle list bounds the source's `while` loop, its
exhaustion standing for the socket ceasing to accept data. -/
def write_to_client (ops : TcpProxyOps H) :
    List WtcStep → Engine H → Nat → Connection → Engine H
  | [], e, _, _ => e
  | step :: rest, e, token, connection =>
    match alookup e.connections connection with
    | none => e
    | some st =>
      let buffer := ops.peek_data st.handler .toClient
      if step.may_send then
        let consumed := min step.capacity buffer.length
        let st1 := { st with
                     handler := ops.consume_data st.handler .toClient consumed }
        let e1 := { e with connections := insertKey connection st1 e.connections }
        if consumed < buffer.length then
          { e1 with write_sockets := insertNat token e1.write_sockets }
        else
          let e2 := { e1 with write_sockets := eraseNat token e1.write_sockets }
          if consumed = 0 then e2
          else
            write_to_client ops rest (check_change_close_state ops e2 connection)
              token connection
      else e

/-- The `if read == 0 || event.is_read_closed()` block of
`mio_socket_event`'s readable path, acting on the flow state `st1` (the
handler already updated by the push): clear wait-read, set
`SERVER_WRITE_CLOSED`, update interest (an error there aborts the closure
with the state reached), re-evaluate close state, flush. -/
def mioRead2 (ops : TcpProxyOps H) (o : MioOracle) (e1 : Engine H)
    (c : Connection) (st1 : ConnectionState H) :
    Except (Engine H) (Engine H) :=
  if o.data.length = 0 || o.read_closed then
    let st2 := { st1 with
                 wait_read := false,
                 close_state := st1.close_state ||| SERVER_WRITE_CLOSED }
    let e2 := { e1 with connections := insertKey c st2 e1.connections }
    match update_mio_socket_interest e2 c with
    | .error _ => .error e2
    | .ok e3 => .ok (check_change_close_state ops e3 c)
  else .ok e1

/-- The tail of `mio_socket_event`'s readable path: forward client-bound
data, then server-bound data, then server-bound again on a writable event;
a `write_to_server` error aborts the closure with the state reached. -/
def mioForward (ops : TcpProxyOps H) (o : MioOracle) (e4 : Engine H)
    (token : Nat) (c : Connection) : Except (Engine H) (Engine H) :=
  let e5 := write_to_client ops o.wtc_steps e4 token c
  match write_to_server ops o.write_result1 e5 c with
  | .error _ => .error e5
  | .ok e6 =>
    if o.writable then
      match write_to_server ops o.write_result2 e6 c with
      | .error _ => .error e6
      | .ok e7 => .ok e7
    else .ok e6

/-- The inner closure of `mio_socket_event`; an error carries the engine
state at the failure point, on which the `or_else` will run
`remove_connection`.  On the readable path: read whatever the stream
yields, push it as `FromServer`; a handler error hard-closes both sides
(shutdown both, close the embedded socket, flush) and removes the flow;
otherwise handle end-of-stream (`mioRead2`) and forward data
(`mioForward`).  On a writable event, forward server-bound data. -/
def mio_inner (ops : TcpProxyOps H) (o : MioOracle) (e : Engine H)
    (token : Nat) (connection : Connection) :
    Except (Engine H) (Engine H) :=
  if o.readable || o.read_closed then
    match alookup e.connections connection with
    | none => .error e
    | some st =>
      match ops.push_data st.handler .fromServer o.data with
      | .error _ =>
        let e1 := { e with shutdown_both := e.shutdown_both ++ [st.mio_stream] }
        let e2 := { e1 with
                    closed_sockets := e1.closed_sockets ++ [st.smoltcp_handle] }
        .ok (remove_connection e2 connection)
      | .ok h1 =>
        let st1 := { st with handler := h1 }
        let e1 := { e with connections := insertKey connection st1 e.connections }
        match mioRead2 ops o e1 connection st1 with
        | .error ee => .error ee
        | .ok e4 => mioForward ops o e4 token connection
  else
    if o.writable then
      match write_to_server ops o.write_result2 e connection with
      | .error _ => .error e
      | .ok e1 => .ok e1
    else .ok e

/-- `TunToProxy::mio_socket_event`: look the token up (a stale token is
ignored with a trace log), run the inner closure, and on any inner error
log it and remove the flow. -/
def mio_socket_event (ops : TcpProxyOps H) (o : MioOracle) (e : Engine H)
    (token : Nat) : Engine H :=
  match alookup e.token_to_connection token with
  | none => e
  | some connection =>
    match mio_inner ops o e token connection with
    | .ok e1 => e1
    | .error e1 => remove_connection e1 connection

/-- A concrete 28-byte IPv4/UDP frame: 20-byte header, protocol 17,
source 10.0.0.1:99, destination 10.0.0.2:53, UDP length field 8. -/
def frame28 : List Nat :=
  [0x45, 0, 0, 28, 0, 0, 0, 0, 64, 17, 0, 0, 10, 0, 0, 1, 10, 0, 0, 2,
   0, 99, 0, 53, 0, 8, 0, 0]

/-- The connection `connection_tuple` extracts from `frame28`. -/
def frame28Conn : Connection :=
  { src := ⟨.v4 10 0 0 1, 99⟩,
    dst := Destination.ofSocketAddr ⟨.v4 10 0 0 2, 53⟩,
    proto := .udp }

/-- Iterated `new_token` states. -/
def iterNew (e : Engine H) : Nat → Engine H
  | 0 => e
  | n + 1 => (new_token (iterNew e n)).2

/-- A trivial handler instance used for concrete witnesses. -/
def unitOps : TcpProxyOps Unit :=
  { push_data := fun _ _ _ => .ok (), consume_data := fun _ _ _ => (),
    peek_data := fun _ _ => [], have_data := fun _ _ => false,
    connection_established := fun _ => false }

/-- A quiescent `receive_tun` oracle for concrete witnesses. -/
def oracle0 : TunOracle :=
  { chunks := [], may_recv := true, tcp_state := .otherState,
    write_result := .wouldBlock }

/-- The empty engine over trivial handlers, for concrete witnesses. -/
def engine0 : Engine Unit := initialEngine [] none

/-- A flow state with both half-close bits set, for concrete witnesses. -/
def stBoth : ConnectionState Unit :=
  { smoltcp_handle := 5, mio_stream := 7, token := 3, handler := (),
    close_state := 3, wait_read := true, wait_write := false }

/-- An engine tracking one fully half-closed flow, for concrete witnesses. -/
def engineC2 : Engine Unit :=
  { engine0 with connections := [(frame28Conn, stBoth)],
                 token_to_connection := [(3, frame28Conn)], sockets := [5],
                 next_token := 4 }

/-- The flow state `write_to_server` installs before its final
close-state re-evaluation, by write outcome: a successful write of `n`
bytes consumes `n` from the handler and sets wait-for-writable iff the
write was partial (`n` below the peeked buffer length); would-block sets
wait-for-writable; any other I/O error installs nothing (it is
propagated). -/
def c4Post (ops : TcpProxyOps H) (wr : WriteResult) (st : ConnectionState H) :
    Option (ConnectionState H) :=
  match wr with
  | .written n =>
    some { st with
           handler := ops.consume_data st.handler .toServer n,
           wait_write := decide (n < (ops.peek_data st.handler .toServer).length) }
  | .wouldBlock => some { st with wait_write := true }
  | .ioError _ => none

/-- Handler ops whose client→server buffer holds three bytes, for
concrete witnesses. -/
def peekOps : TcpProxyOps Unit :=
  { push_data := fun _ _ _ => .ok (), consume_data := fun _ _ _ => (),
    peek_data := fun _ d => match d with | .toServer => [1, 2, 3] | .toClient => [],
    have_data := fun _ _ => false, connection_established := fun _ => false }

/-- A freshly created flow state, for concrete witnesses. -/
def stW : ConnectionState Unit :=
  { smoltcp_handle := 5, mio_stream := 7, token := 3, handler := (),
    close_state := 0, wait_read := true, wait_write := false }

/-- An engine tracking one fresh flow, for concrete witnesses. -/
def engineC4 : Engine Unit :=
  { engine0 with connections := [(frame28Conn, stW)],
                 token_to_connection := [(3, frame28Conn)], sockets := [5],
                 next_token := 4 }

/-- The state `write_to_server` installs for `stW` after a 1-byte
partial write. -/
def stC4post : ConnectionState Unit := { stW with wait_write := true }

/-- Handler ops that reject pushed data, for concrete witnesses. -/
def errOps : TcpProxyOps Unit :=
  { push_data := fun _ _ _ => .error "bad", consume_data := fun _ _ _ => (),
    peek_data := fun _ _ => [], have_data := fun _ _ => false,
    connection_established := fun _ => false }

/-- A readable proxy-socket event delivering one byte, for concrete
witnesses. -/
def mioOracle0 : MioOracle :=
  { readable := true, read_closed := false, writable := false, data := [9],
    wtc_steps := [], write_result1 := .wouldBlock,
    write_result2 := .wouldBlock }

/-- The manager/handler pair the creation loop of `receive_tun` settles
on, stated as a recursive first-match over the registration order: the
first manager whose `new_connection` yields a handler (an error
propagates, a decline moves on). -/
def firstAccept : List (ConnectionManagerOps H) → Connection →
    Except String (Option (ConnectionManagerOps H × H))
  | [], _ => .ok none
  | m :: rest, c =>
    match m.new_connection c with
    | .error s => .error s
    | .ok none => firstAccept rest c
    | .ok (some h) => .ok (some (m, h))

/-- Pass-through string-handler ops, for concrete witnesses. -/
def strOps : TcpProxyOps String :=
  { push_data := fun h _ _ => .ok h, consume_data := fun h _ _ => h,
    peek_data := fun _ _ => [], have_data := fun _ _ => false,
    connection_established := fun _ => false }

/-- A manager that claims nothing but hands out handler "h0". -/
def mgr0 : ConnectionManagerOps String :=
  { handles_connection := fun _ => false,
    new_connection := fun _ => .ok (some "h0"),
    get_server := ⟨.v4 127 0 0 1, 1080⟩ }

/-- A manager that claims everything and hands out handler "h1". -/
def mgr1 : ConnectionManagerOps String :=
  { handles_connection := fun _ => true,
    new_connection := fun _ => .ok (some "h1"),
    get_server := ⟨.v4 127 0 0 1, 9999⟩ }

/-- An empty engine registering `mgr0` before `mgr1`. -/
def engineC6 : Engine String := initialEngine [mgr0, mgr1] none

/-- A 40-byte IPv4/TCP SYN (SYN set, ACK clear): 20-byte IP header,
protocol 6, 10.0.0.1:99 → 10.0.0.2:80, data offset 5, flags 0x02. -/
def synFrame : List Nat :=
  [0x45, 0, 0, 40, 0, 0, 0, 0, 64, 6, 0, 0, 10, 0, 0, 1, 10, 0, 0, 2,
   0, 99, 0, 80, 0, 0, 0, 0, 0, 0, 0, 0, 0x50, 2, 0, 0, 0, 0, 0, 0]

/-- The connection `connection_tuple` extracts from `synFrame`. -/
def connSyn : Connection :=
  { src := ⟨.v4 10 0 0 1, 99⟩,
    dst := Destination.ofSocketAddr ⟨.v4 10 0 0 2, 80⟩,
    proto := .tcp }

/-- A manager claiming every connection with trivial handlers. -/
def mgrU : ConnectionManagerOps Unit :=
  { handles_connection := fun _ => true,
    new_connection := fun _ => .ok (some ()),
    get_server := ⟨.v4 127 0 0 1, 1080⟩ }

/-- An empty engine with the single manager `mgrU`. -/
def engineC3 : Engine Unit := initialEngine [mgrU] none

/-- `synFrame` with ACK instead of SYN (flags 0x10): not a first packet. -/
def ackFrame : List Nat :=
  [0x45, 0, 0, 40, 0, 0, 0, 0, 64, 6, 0, 0, 10, 0, 0, 1, 10, 0, 0, 2,
   0, 99, 0, 80, 0, 0, 0, 0, 0, 0, 0, 0, 0x50, 0x10, 0, 0, 0, 0, 0, 0]

/-- One token-index binding is consistent: the bound connection is a
flow-table key whose stored `ConnectionState.token` is the token. -/
def tokenInvP (e : Engine H) (p : Nat × Connection) : Bool :=
  match alookup e.connections p.2 with
  | some st => st.token == p.1
  | none => false

/-- The C1 invariant, decidably: every token in the token→connection
index maps to a flow-table key whose stored `ConnectionState.token` is
that token. -/
def tokenInvB (e : Engine H) : Bool :=
  e.token_to_connection.all (tokenInvP e)

/-- The engine `createLoop` produces on `engineC6` for `connSyn`, for
concrete witnesses. -/
def c6CreateResult : Engine String :=
  (createLoop [mgr0, mgr1] connSyn connSyn.dst mgr1.get_server
    engineC6).toOption.getD engineC6

/-! ## Theorems -/

/-- C8: converting a `Destination` to a `SocketAddr` succeeds with exactly
the address-port pair when the host is a literal IP address, and fails
with an error carrying the hostname when the host is a hostname. -/
theorem c8_destination_conversion (a : IpAddr) (p : Nat) (n : String) :
    SocketAddr.try_from ⟨.Address a, p⟩ = .ok ⟨a, p⟩ ∧
    SocketAddr.try_from ⟨.Hostname n, p⟩ = .error n :=
  ⟨rfl, rfl⟩

theorem ipv4Header_le {frame : List Nat} {hl : Nat} {proto : IpProtocol}
    {s d : IpAddr} (h : ipv4Header frame = some (hl, proto, s, d)) :
    hl ≤ frame.length := by
  simp only [ipv4Header] at h
  split_ifs at h with h1 h2
  simp only [Option.some.injEq, Prod.mk.injEq] at h
  omega

theorem ipv6Header_eq_40 {frame : List Nat} {hl : Nat} {proto : IpProtocol}
    {s d : IpAddr} (h : ipv6Header frame = some (hl, proto, s, d)) :
    hl = 40 ∧ 40 ≤ frame.length := by
  simp only [ipv6Header] at h
  split_ifs at h with h1 h2
  simp only [Option.some.injEq, Prod.mk.injEq] at h
  omega

theorem udpTransportInfo_bounds {off : Nat} {packet : List Nat}
    {ports : Nat × Nat} {fp : Bool} {o sz : Nat}
    (h : udpTransportInfo off packet = some (ports, fp, o, sz)) :
    o = off + 8 ∧ sz = packet.length - 8 ∧ 8 ≤ packet.length := by
  simp only [udpTransportInfo] at h
  split_ifs at h with h1 h2
  simp only [Option.some.injEq, Prod.mk.injEq] at h
  omega

/-- C9: whenever `connection_tuple` parses a frame as UDP, the payload
offset plus the payload size is exactly the frame length (so the DNS
payload slice on the UDP/53 path is in bounds), the offset is the IP
header length plus the 8-byte UDP header, and the transport slice holds
at least 8 bytes, so `packet.len() - 8` in `get_transport_info` does not
underflow. -/
theorem c9_udp_payload_bounds (frame : List Nat) (c : Connection) (fp : Bool)
    (off sz : Nat) (h : connection_tuple frame = some (c, fp, off, sz))
    (hu : c.proto = .udp) :
    off + sz = frame.length ∧ 8 ≤ off ∧ off ≤ frame.length ∧
      8 ≤ frame.length - (off - 8) := by
  unfold connection_tuple at h
  cases h4 : ipv4Header frame with
  | some v =>
    obtain ⟨hl, proto, s, d⟩ := v
    rw [h4] at h
    dsimp only at h
    cases ht : get_transport_info proto hl (frame.drop hl) with
    | none => rw [ht] at h; exact absurd h (by simp)
    | some w =>
      obtain ⟨ports, fp1, o1, sz1⟩ := w
      rw [ht] at h
      dsimp only at h
      simp only [Option.some.injEq, Prod.mk.injEq] at h
      obtain ⟨hc, -, hoff, hsz⟩ := h
      have hp : proto = .udp := by rw [← hu, ← hc]
      subst hp
      simp only [get_transport_info] at ht
      obtain ⟨ho, hs, hlen⟩ := udpTransportInfo_bounds ht
      have hdrop : (frame.drop hl).length = frame.length - hl :=
        List.length_drop hl frame
      have hhl := ipv4Header_le h4
      rw [hdrop] at hs hlen
      omega
  | none =>
    rw [h4] at h
    dsimp only at h
    cases h6 : ipv6Header frame with
    | none => rw [h6] at h; exact absurd h (by simp)
    | some v =>
      obtain ⟨hl, proto, s, d⟩ := v
      rw [h6] at h
      dsimp only at h
      cases ht : get_transport_info proto hl (frame.drop hl) with
      | none => rw [ht] at h; exact absurd h (by simp)
      | some w =>
        obtain ⟨ports, fp1, o1, sz1⟩ := w
        rw [ht] at h
        dsimp only at h
        simp only [Option.some.injEq, Prod.mk.injEq] at h
        obtain ⟨hc, -, hoff, hsz⟩ := h
        have hp : proto = .udp := by rw [← hu, ← hc]
        subst hp
        simp only [get_transport_info] at ht
        obtain ⟨ho, hs, hlen⟩ := udpTransportInfo_bounds ht
        have hdrop : (frame.drop hl).length = frame.length - hl :=
          List.length_drop hl frame
        obtain ⟨-, hhl⟩ := ipv6Header_eq_40 h6
        rw [hdrop] at hs hlen
        have hhl2 := ipv6Header_eq_40 h6
        omega

theorem c9_udp_payload_bounds_witness :
    connection_tuple frame28 = some (frame28Conn, false, 28, 0) ∧
    (28 + 0 = frame28.length ∧ 8 ≤ 28 ∧ 28 ≤ frame28.length ∧
      8 ≤ frame28.length - (28 - 8)) :=
  ⟨by decide,
   c9_udp_payload_bounds frame28 frame28Conn false 28 0 (by decide) (by decide)⟩

variable {H2 : Type}

theorem remove_connection_not_tracked {e : Engine H2} {c : Connection}
    (h : alookup e.connections c = none) : remove_connection e c = e := by
  simp [remove_connection, h]

theorem remove_connection_closed_sockets (e : Engine H2) (c : Connection) :
    (remove_connection e c).closed_sockets = e.closed_sockets := by
  cases halo : alookup e.connections c <;> simp [remove_connection, halo]

theorem remove_connection_shutdown_write (e : Engine H2) (c : Connection) :
    (remove_connection e c).shutdown_write = e.shutdown_write := by
  cases halo : alookup e.connections c <;> simp [remove_connection, halo]

theorem remove_connection_lookup_self (e : Engine H2) (c : Connection) :
    alookup (remove_connection e c).connections c = none := by
  cases halo : alookup e.connections c <;>
    simp [remove_connection, halo, alookup_eraseKey_self]

/-- C10: `remove_connection` on an untracked connection leaves the engine
(flow table, token index, socket set and all) unchanged — the source
always returns `Ok` — and removing twice equals removing once. -/
theorem c10_remove_connection_idempotent (e : Engine H2) (c : Connection) :
    (alookup e.connections c = none → remove_connection e c = e) ∧
    remove_connection (remove_connection e c) c = remove_connection e c :=
  ⟨remove_connection_not_tracked,
   remove_connection_not_tracked (remove_connection_lookup_self e c)⟩

theorem c10_remove_connection_idempotent_witness :
    remove_connection engine0 frame28Conn = engine0 ∧
    remove_connection (remove_connection engine0 frame28Conn) frame28Conn =
      remove_connection engine0 frame28Conn :=
  ⟨(c10_remove_connection_idempotent engine0 frame28Conn).1 rfl,
   (c10_remove_connection_idempotent engine0 frame28Conn).2⟩

/-- C2: after `check_change_close_state` on a tracked flow, a drained
server side means the embedded socket was closed, a drained client side
means the proxy stream's write side was shut down, and the flow is
removed from the flow table iff both conditions hold. -/
theorem c2_check_change_close_state (ops : TcpProxyOps H2) (e : Engine H2)
    (c : Connection) (st : ConnectionState H2)
    (h : alookup e.connections c = some st) :
    (serverCloseReady ops st = true →
      st.smoltcp_handle ∈ (check_change_close_state ops e c).closed_sockets) ∧
    (clientCloseReady ops st = true →
      st.mio_stream ∈ (check_change_close_state ops e c).shutdown_write) ∧
    (alookup (check_change_close_state ops e c).connections c = none ↔
      (serverCloseReady ops st = true ∧ clientCloseReady ops st = true)) := by
  unfold check_change_close_state
  rw [h]
  dsimp only
  by_cases hs : serverCloseReady ops st = true <;>
    by_cases hc : clientCloseReady ops st = true <;>
      simp only [hs, hc, if_true, if_false, Bool.and_self, Bool.and_false,
        Bool.false_and, Bool.true_and, Bool.and_true, if_neg, ite_true,
        ite_false, Bool.false_eq_true]
  · refine ⟨fun _ => ?_, fun _ => ?_, ?_⟩
    · rw [remove_connection_closed_sockets]
      simp
    · rw [remove_connection_shutdown_write]
      simp
    · simp [remove_connection_lookup_self]
  · refine ⟨fun _ => ?_, fun hcc => hcc.elim, ?_⟩
    · simp
    · simp [h, hc]
  · refine ⟨fun hss => hss.elim, fun _ => ?_, ?_⟩
    · simp
    · simp [h, hs]
  · refine ⟨fun hss => hss.elim, fun hcc => hcc.elim, ?_⟩
    simp [h, hs]

theorem c2_check_change_close_state_witness :
    5 ∈ (check_change_close_state unitOps engineC2 frame28Conn).closed_sockets ∧
    7 ∈ (check_change_close_state unitOps engineC2 frame28Conn).shutdown_write ∧
    alookup (check_change_close_state unitOps engineC2 frame28Conn).connections
      frame28Conn = none :=
  ⟨(c2_check_change_close_state unitOps engineC2 frame28Conn stBoth
      (by decide)).1 (by decide),
   (c2_check_change_close_state unitOps engineC2 frame28Conn stBoth
      (by decide)).2.1 (by decide),
   (c2_check_change_close_state unitOps engineC2 frame28Conn stBoth
      (by decide)).2.2.mpr ⟨by decide, by decide⟩⟩

theorem iterNew_next_token (e : Engine H2) (n : Nat) :
    (iterNew e n).next_token = e.next_token + n := by
  induction n with
  | zero => rfl
  | succ n ih =>
    simp only [iterNew, new_token, ih]
    omega

theorem next_token_remove (e : Engine H2) (c : Connection) :
    (remove_connection e c).next_token = e.next_token := by
  cases halo : alookup e.connections c <;> simp [remove_connection, halo]

theorem next_token_check (ops : TcpProxyOps H2) (e : Engine H2) (c : Connection) :
    (check_change_close_state ops e c).next_token = e.next_token := by
  unfold check_change_close_state
  cases halo : alookup e.connections c with
  | none => rfl
  | some st =>
    dsimp only
    split_ifs <;> simp [next_token_remove]

theorem next_token_update_interest {e : Engine H2} {c : Connection}
    {e1 : Engine H2} (h : update_mio_socket_interest e c = .ok e1) :
    e1.next_token = e.next_token := by
  unfold update_mio_socket_interest at h
  cases halo : alookup e.connections c <;> rw [halo] at h
  · exact absurd h (by simp)
  · dsimp only at h
    split_ifs at h <;> simp only [Except.ok.injEq] at h <;> rw [← h]

theorem next_token_interest_check {ops : TcpProxyOps H2} {e : Engine H2}
    {c : Connection} {e1 : Engine H2}
    (h : (match update_mio_socket_interest e c with
          | .error s => Except.error s
          | .ok e2 => .ok (check_change_close_state ops e2 c)) = .ok e1) :
    e1.next_token = e.next_token := by
  cases hu : update_mio_socket_interest e c <;> rw [hu] at h
  · exact absurd h (by simp)
  · simp only [Except.ok.injEq] at h
    rw [← h, next_token_check, next_token_update_interest hu]

theorem next_token_write_to_server {ops : TcpProxyOps H2} {wr : WriteResult}
    {e : Engine H2} {c : Connection} {e1 : Engine H2}
    (h : write_to_server ops wr e c = .ok e1) :
    e1.next_token = e.next_token := by
  unfold write_to_server at h
  cases halo : alookup e.connections c <;> rw [halo] at h <;> dsimp only at h
  · simp only [Except.ok.injEq] at h
    rw [← h, next_token_check]
  · split_ifs at h
    · have h2 := next_token_interest_check h
      exact h2
    · cases wr <;> dsimp only at h
      · have h2 := next_token_interest_check h
        exact h2
      · have h2 := next_token_interest_check h
        exact h2
      · exact absurd h (by simp)

theorem next_token_tunsocket (ops : TcpProxyOps H2) (o : TunOracle)
    (e : Engine H2) (c : Connection) :
    (tunsocket_read_and_forward ops o e c).next_token = e.next_token := by
  unfold tunsocket_read_and_forward
  cases halo : alookup e.connections c
  · rfl
  · dsimp only
    rw [next_token_check]
    rfl

theorem next_token_postInject (ops : TcpProxyOps H2) (o : TunOracle)
    (e : Engine H2) (c : Connection) :
    (postInject ops o e c).next_token = e.next_token := by
  simp only [postInject]
  cases hw : write_to_server ops o.write_result
      (tunsocket_read_and_forward ops o e c) c
  · dsimp only
    rw [next_token_tunsocket]
  · dsimp only
    rw [next_token_write_to_server hw, next_token_tunsocket]

theorem next_token_createLoop {mgrs : List (ConnectionManagerOps H2)}
    {resolved : Connection} {dst : Destination} {server : SocketAddr}
    {e e1 : Engine H2} (h : createLoop mgrs resolved dst server e = .ok e1) :
    e.next_token ≤ e1.next_token ∧ e1.next_token ≤ e.next_token + 1 := by
  induction mgrs with
  | nil =>
    simp only [createLoop, Except.ok.injEq] at h
    subst h
    omega
  | cons m rest ih =>
    unfold createLoop at h
    cases hm : m.new_connection resolved <;> rw [hm] at h
    · exact absurd h (by simp)
    · rename_i v
      cases v <;> dsimp only at h
      · exact ih h
      · cases htf : SocketAddr.try_from dst <;> rw [htf] at h
        · exact absurd h (by simp)
        · dsimp only at h
          split_ifs at h <;> simp only [Except.ok.injEq, reduceCtorEq] at h
          rw [← h]
          dsimp only [new_token]
          omega

theorem next_token_udpPath (e : Engine H2) (dst : Destination)
    (frame : List Nat) (off sz : Nat) :
    (udpPath e dst frame off sz).next_token = e.next_token := by
  unfold udpPath
  cases e.virtdns
  · rfl
  · dsimp only
    rename_i vd
    cases vd.receive_query ((frame.drop off).take sz)
    · rfl
    · dsimp only
      cases SocketAddr.try_from dst
      · rfl
      · dsimp only
        split_ifs <;> rfl

theorem next_token_receive_tun {ops : TcpProxyOps H2} {o : TunOracle}
    {e : Engine H2} {frame : List Nat} {e1 : Engine H2}
    (h : receive_tun ops o e frame = .ok e1) :
    e.next_token ≤ e1.next_token ∧ e1.next_token ≤ e.next_token + 1 := by
  unfold receive_tun at h
  cases hct : connection_tuple frame <;> rw [hct] at h
  · simp only [Except.ok.injEq] at h
    subst h
    omega
  · rename_i v
    obtain ⟨conn, fp, off, sz⟩ := v
    dsimp only at h
    cases hr : resolveConn e conn <;> rw [hr] at h
    · exact absurd h (by simp)
    · rename_i resolved
      dsimp only at h
      by_cases hp : resolved.proto = IpProtocol.tcp
      · rw [if_pos hp] at h
        cases hcm : get_connection_manager e resolved <;> rw [hcm] at h
        · simp only [Except.ok.injEq] at h
          subst h
          omega
        · dsimp only at h
          rename_i cm
          by_cases hfp : fp = true
          · rw [if_pos hfp] at h
            cases hcl : createLoop e.managers resolved conn.dst cm.get_server e
                <;> rw [hcl] at h
            · simp only [Except.ok.injEq] at h
              subst h
              omega
            · simp only [Except.ok.injEq] at h
              rename_i e2
              obtain ⟨h4, h5⟩ := next_token_createLoop hcl
              subst h
              rw [next_token_postInject]
              omega
          · rw [if_neg hfp] at h
            by_cases hs : (alookup e.connections resolved).isSome = true
            · rw [if_pos hs] at h
              simp only [Except.ok.injEq] at h
              subst h
              rw [next_token_postInject]
              omega
            · rw [if_neg hs] at h
              simp only [Except.ok.injEq] at h
              subst h
              omega
      · rw [if_neg hp] at h
        by_cases hq : resolved.proto = IpProtocol.udp ∧ resolved.dst.port = 53
        · rw [if_pos hq] at h
          simp only [Except.ok.injEq] at h
          subst h
          rw [next_token_udpPath]
          omega
        · rw [if_neg hq] at h
          simp only [Except.ok.injEq] at h
          subst h
          omega

theorem next_token_write_to_client (ops : TcpProxyOps H2)
    (steps : List WtcStep) :
    ∀ (e : Engine H2) (token : Nat) (c : Connection),
    (write_to_client ops steps e token c).next_token = e.next_token := by
  induction steps with
  | nil => intro e token c; rfl
  | cons s rest ih =>
    intro e token c
    unfold write_to_client
    cases halo : alookup e.connections c
    · rfl
    · dsimp only
      split_ifs <;> try rfl
      rw [ih, next_token_check]

theorem ntic2_ok {ops : TcpProxyOps H2} {e : Engine H2} {c : Connection}
    {e4 : Engine H2}
    (h : (match update_mio_socket_interest e c with
          | .error _ => Except.error e
          | .ok e3 => Except.ok (check_change_close_state ops e3 c)) =
        Except.ok e4) :
    e4.next_token = e.next_token := by
  cases hu : update_mio_socket_interest e c <;> rw [hu] at h <;>
    simp only [Except.ok.injEq, reduceCtorEq] at h
  rw [← h, next_token_check, next_token_update_interest hu]

theorem ntic2_error {ops : TcpProxyOps H2} {e : Engine H2} {c : Connection}
    {e4 : Engine H2}
    (h : (match update_mio_socket_interest e c with
          | .error _ => Except.error e
          | .ok e3 => Except.ok (check_change_close_state ops e3 c)) =
        Except.error e4) :
    e4.next_token = e.next_token := by
  cases hu : update_mio_socket_interest e c <;> rw [hu] at h <;>
    simp only [Except.error.injEq, reduceCtorEq] at h
  rw [← h]

theorem next_token_mioRead2_ok {ops : TcpProxyOps H2} {o : MioOracle}
    {e1 : Engine H2} {c : Connection} {st1 : ConnectionState H2}
    {e4 : Engine H2} (h : mioRead2 ops o e1 c st1 = .ok e4) :
    e4.next_token = e1.next_token := by
  unfold mioRead2 at h
  split_ifs at h
  · have h2 := ntic2_ok h
    exact h2
  · simp only [Except.ok.injEq] at h
    rw [← h]

theorem next_token_mioRead2_error {ops : TcpProxyOps H2} {o : MioOracle}
    {e1 : Engine H2} {c : Connection} {st1 : ConnectionState H2}
    {e4 : Engine H2} (h : mioRead2 ops o e1 c st1 = .error e4) :
    e4.next_token = e1.next_token := by
  unfold mioRead2 at h
  split_ifs at h
  · have h2 := ntic2_error h
    exact h2

theorem next_token_mioForward_ok {ops : TcpProxyOps H2} {o : MioOracle}
    {e4 : Engine H2} {token : Nat} {c : Connection} {e6 : Engine H2}
    (h : mioForward ops o e4 token c = .ok e6) :
    e6.next_token = e4.next_token := by
  simp only [mioForward] at h
  cases hw1 : write_to_server ops o.write_result1
      (write_to_client ops o.wtc_steps e4 token c) c <;> rw [hw1] at h <;>
    dsimp only at h
  · exact absurd h (by simp)
  · rename_i ea
    split_ifs at h with hwr
    · cases hw2 : write_to_server ops o.write_result2 ea c <;> rw [hw2] at h <;>
        simp only [Except.ok.injEq, reduceCtorEq] at h
      rw [← h, next_token_write_to_server hw2, next_token_write_to_server hw1,
        next_token_write_to_client]
    · simp only [Except.ok.injEq] at h
      rw [← h, next_token_write_to_server hw1, next_token_write_to_client]

theorem next_token_mioForward_error {ops : TcpProxyOps H2} {o : MioOracle}
    {e4 : Engine H2} {token : Nat} {c : Connection} {e6 : Engine H2}
    (h : mioForward ops o e4 token c = .error e6) :
    e6.next_token = e4.next_token := by
  simp only [mioForward] at h
  cases hw1 : write_to_server ops o.write_result1
      (write_to_client ops o.wtc_steps e4 token c) c <;> rw [hw1] at h <;>
    dsimp only at h
  · simp only [Except.error.injEq] at h
    rw [← h, next_token_write_to_client]
  · rename_i ea
    split_ifs at h with hwr
    · cases hw2 : write_to_server ops o.write_result2 ea c <;> rw [hw2] at h <;>
        simp only [Except.error.injEq, reduceCtorEq] at h
      rw [← h, next_token_write_to_server hw1, next_token_write_to_client]

theorem next_token_mio_inner_ok {ops : TcpProxyOps H2} {o : MioOracle}
    {e : Engine H2} {token : Nat} {c : Connection} {e1 : Engine H2}
    (h : mio_inner ops o e token c = .ok e1) : e1.next_token = e.next_token := by
  simp only [mio_inner] at h
  split_ifs at h with hrd hwv
  · cases halo : alookup e.connections c <;> rw [halo] at h <;> dsimp only at h
    · exact absurd h (by simp)
    · rename_i st
      cases hpd : ops.push_data st.handler .fromServer o.data <;> rw [hpd] at h
          <;> dsimp only at h
      · simp only [Except.ok.injEq] at h
        rw [← h, next_token_remove]
      · split at h
        · exact absurd h (by simp)
        · rename_i e4 hme
          have h2 := next_token_mioForward_ok h
          have h3 := next_token_mioRead2_ok hme
          exact h2.trans h3
  · cases hw : write_to_server ops o.write_result2 e c <;> rw [hw] at h <;>
      simp only [Except.ok.injEq, reduceCtorEq] at h
    rw [← h, next_token_write_to_server hw]
  · simp only [Except.ok.injEq] at h
    rw [← h]

theorem next_token_mio_inner_error {ops : TcpProxyOps H2} {o : MioOracle}
    {e : Engine H2} {token : Nat} {c : Connection} {e1 : Engine H2}
    (h : mio_inner ops o e token c = .error e1) :
    e1.next_token = e.next_token := by
  simp only [mio_inner] at h
  split_ifs at h with hrd hwv
  · cases halo : alookup e.connections c <;> rw [halo] at h <;> dsimp only at h
    · simp only [Except.error.injEq] at h
      rw [← h]
    · rename_i st
      cases hpd : ops.push_data st.handler .fromServer o.data <;> rw [hpd] at h
          <;> dsimp only at h
      · simp only [reduceCtorEq] at h
      · split at h
        · rename_i ee hme
          simp only [Except.error.injEq] at h
          have h3 := next_token_mioRead2_error hme
          rw [← h]
          exact h3
        · rename_i e4 hme
          have h2 := next_token_mioForward_error h
          have h3 := next_token_mioRead2_ok hme
          exact h2.trans h3
  · cases hw : write_to_server ops o.write_result2 e c <;> rw [hw] at h <;>
      simp only [Except.error.injEq, reduceCtorEq] at h
    rw [← h]

theorem next_token_mio_socket_event (ops : TcpProxyOps H2) (o : MioOracle)
    (e : Engine H2) (token : Nat) :
    (mio_socket_event ops o e token).next_token = e.next_token := by
  unfold mio_socket_event
  cases halo : alookup e.token_to_connection token <;> dsimp only
  rename_i c
  cases hi : mio_inner ops o e token c <;> dsimp only
  · rw [next_token_remove, next_token_mio_inner_error hi]
  · rw [next_token_mio_inner_ok hi]

/-- C7: the reserved tokens are 0, 1, 2; the engine starts its token
counter at `EXIT_TOKEN + 1`; whenever the counter is above the reserved
range, `new_token` yields a non-reserved token and successive calls yield
strictly increasing (hence never repeating) tokens; `receive_tun` (the
only operation that mints flow tokens) never decreases the counter, and
`mio_socket_event` leaves it unchanged, so a minted token is never handed
out a second time during the process lifetime. -/
theorem c7_reserved_tokens_and_monotone_counter {H : Type} :
    (TUN_TOKEN = 0 ∧ UDP_TOKEN = 1 ∧ EXIT_TOKEN = 2 ∧
      ∀ (mgrs : List (ConnectionManagerOps H)) (vd : Option VDns),
        (initialEngine mgrs vd).next_token = EXIT_TOKEN + 1) ∧
    (∀ e : Engine H, EXIT_TOKEN < e.next_token →
        (new_token e).1 ≠ TUN_TOKEN ∧ (new_token e).1 ≠ UDP_TOKEN ∧
        (new_token e).1 ≠ EXIT_TOKEN) ∧
    (∀ (e : Engine H) (m n : Nat), m < n →
        (new_token (iterNew e m)).1 < (new_token (iterNew e n)).1) ∧
    (∀ (ops : TcpProxyOps H) (o : TunOracle) (e : Engine H) (frame : List Nat)
        (e1 : Engine H), receive_tun ops o e frame = .ok e1 →
        e.next_token ≤ e1.next_token) ∧
    (∀ (ops : TcpProxyOps H) (o : MioOracle) (e : Engine H) (token : Nat),
        (mio_socket_event ops o e token).next_token = e.next_token) := by
  refine ⟨⟨rfl, rfl, rfl, fun _ _ => rfl⟩, fun e he => ?_, fun e m n hmn => ?_,
    fun ops o e frame e1 h => (next_token_receive_tun h).1,
    fun ops o e token => next_token_mio_socket_event ops o e token⟩
  · refine ⟨?_, ?_, ?_⟩ <;>
      simp only [new_token, TUN_TOKEN, UDP_TOKEN, EXIT_TOKEN] at he ⊢ <;> omega
  · simp only [new_token, iterNew_next_token]
    omega

theorem c7_witness :
    ((new_token engine0).1 ≠ TUN_TOKEN ∧ (new_token engine0).1 ≠ UDP_TOKEN ∧
      (new_token engine0).1 ≠ EXIT_TOKEN) ∧
    (new_token (iterNew engine0 0)).1 < (new_token (iterNew engine0 2)).1 ∧
    engine0.next_token ≤ engine0.next_token :=
  ⟨(c7_reserved_tokens_and_monotone_counter (H := Unit)).2.1 engine0 (by decide),
   (c7_reserved_tokens_and_monotone_counter (H := Unit)).2.2.1 engine0 0 2
     (by decide),
   (c7_reserved_tokens_and_monotone_counter (H := Unit)).2.2.2.1 unitOps oracle0
     engine0 [] engine0 rfl⟩

theorem update_interest_spec {e : Engine H2} {c : Connection}
    {st : ConnectionState H2} (h : alookup e.connections c = some st) :
    ∃ e2, update_mio_socket_interest e c = .ok e2 ∧
      e2.connections = e.connections ∧
      e2.token_to_connection = e.token_to_connection ∧
      alookup e2.registered st.token =
        (if st.wait_read || st.wait_write then
          some (st.wait_read, st.wait_write) else none) := by
  unfold update_mio_socket_interest
  rw [h]
  dsimp only
  by_cases hb : (!st.wait_read && !st.wait_write) = true
  · rw [if_pos hb]
    refine ⟨_, rfl, rfl, rfl, ?_⟩
    have h2 : st.wait_read = false ∧ st.wait_write = false := by
      cases hr : st.wait_read <;> cases hw : st.wait_write <;>
        simp [hr, hw] at hb ⊢
    rw [h2.1, h2.2]
    simp [alookup_eraseKey_self]
  · rw [if_neg hb]
    refine ⟨_, rfl, rfl, rfl, ?_⟩
    have h2 : (st.wait_read || st.wait_write) = true := by
      cases hr : st.wait_read <;> cases hw : st.wait_write <;>
        simp [hr, hw] at hb ⊢
    rw [h2]
    simp [alookup_insertKey_self]

/-- C4: `write_to_server` on a tracked flow: an empty client→server
buffer clears wait-for-writable, updates reactor interest and re-evaluates
close state; a successful write of `n` bytes consumes `n` and sets
wait-for-writable iff the write was partial, then updates interest and
re-evaluates close state; would-block sets wait-for-writable likewise;
any other I/O error is propagated to the caller. -/
theorem c4_write_to_server (ops : TcpProxyOps H2) (wr : WriteResult)
    (e : Engine H2) (c : Connection) (st : ConnectionState H2)
    (h : alookup e.connections c = some st) :
    ((ops.peek_data st.handler .toServer).length = 0 →
      ∃ e2, update_mio_socket_interest
            (setConn e c { st with wait_write := false }) c = .ok e2 ∧
        write_to_server ops wr e c = .ok (check_change_close_state ops e2 c) ∧
        alookup e2.connections c = some { st with wait_write := false } ∧
        alookup e2.registered st.token =
          (if st.wait_read then some (st.wait_read, false) else none)) ∧
    ((ops.peek_data st.handler .toServer).length ≠ 0 →
      (∀ msg, wr = .ioError msg → write_to_server ops wr e c = .error msg) ∧
      (∀ st1, c4Post ops wr st = some st1 →
        ∃ e2, update_mio_socket_interest (setConn e c st1) c = .ok e2 ∧
          write_to_server ops wr e c = .ok (check_change_close_state ops e2 c) ∧
          alookup e2.connections c = some st1 ∧
          alookup e2.registered st.token =
            (if st.wait_read || st1.wait_write then
              some (st.wait_read, st1.wait_write) else none))) := by
  constructor
  · intro hlen
    have hpresent : alookup (setConn e c { st with wait_write := false }).connections
        c = some { st with wait_write := false } := by
      simp [setConn, alookup_insertKey_self]
    obtain ⟨e2, hu, hc2, htc2, hreg⟩ := update_interest_spec hpresent
    refine ⟨e2, hu, ?_, ?_, ?_⟩
    · unfold write_to_server
      rw [h]
      dsimp only
      rw [if_pos hlen]
      simp only [setConn] at hu
      rw [hu]
    · rw [hc2]
      simp [setConn, alookup_insertKey_self]
    · simpa using hreg
  · intro hlen
    constructor
    · intro msg hw
      subst hw
      unfold write_to_server
      rw [h]
      dsimp only
      rw [if_neg hlen]
    · intro st1 hpost
      cases wr with
      | ioError msg => simp [c4Post] at hpost
      | written n =>
        simp only [c4Post, Option.some.injEq] at hpost
        subst hpost
        have hpresent : alookup (setConn e c
            { st with
              handler := ops.consume_data st.handler .toServer n,
              wait_write := decide (n < (ops.peek_data st.handler .toServer).length) }).connections
            c = some
            { st with
              handler := ops.consume_data st.handler .toServer n,
              wait_write := decide (n < (ops.peek_data st.handler .toServer).length) } := by
          simp [setConn, alookup_insertKey_self]
        obtain ⟨e2, hu, hc2, htc2, hreg⟩ := update_interest_spec hpresent
        refine ⟨e2, hu, ?_, ?_, ?_⟩
        · unfold write_to_server
          rw [h]
          dsimp only
          rw [if_neg hlen]
          simp only [setConn] at hu
          rw [hu]
        · rw [hc2]
          simp [setConn, alookup_insertKey_self]
        · exact hreg
      | wouldBlock =>
        simp only [c4Post, Option.some.injEq] at hpost
        subst hpost
        have hpresent : alookup (setConn e c
            { st with wait_write := true }).connections c =
            some { st with wait_write := true } := by
          simp [setConn, alookup_insertKey_self]
        obtain ⟨e2, hu, hc2, htc2, hreg⟩ := update_interest_spec hpresent
        refine ⟨e2, hu, ?_, ?_, ?_⟩
        · unfold write_to_server
          rw [h]
          dsimp only
          rw [if_neg hlen]
          simp only [setConn] at hu
          rw [hu]
        · rw [hc2]
          simp [setConn, alookup_insertKey_self]
        · exact hreg

theorem c4_write_to_server_witness :
    ∃ e2, update_mio_socket_interest (setConn engineC4 frame28Conn stC4post)
        frame28Conn = .ok e2 ∧
      write_to_server peekOps (.written 1) engineC4 frame28Conn =
        .ok (check_change_close_state peekOps e2 frame28Conn) ∧
      alookup e2.connections frame28Conn = some stC4post ∧
      alookup e2.registered stW.token =
        (if stW.wait_read || stC4post.wait_write then
          some (stW.wait_read, stC4post.wait_write) else none) :=
  ((c4_write_to_server peekOps (.written 1) engineC4 frame28Conn stW
      (by decide)).2 (by decide)).2 stC4post (by decide)

theorem mem_eraseNat {m n : Nat} {l : List Nat} :
    m ∈ eraseNat n l ↔ m ∈ l ∧ m ≠ n := by
  simp [eraseNat, List.mem_filter]

theorem remove_connection_shutdown_both (e : Engine H2) (c : Connection) :
    (remove_connection e c).shutdown_both = e.shutdown_both := by
  cases halo : alookup e.connections c <;> simp [remove_connection, halo]

/-- C5: when `push_data(FromServer)` fails during a readable proxy-socket
event, the engine shuts down both directions of that flow's proxy stream,
closes its embedded socket, and removes exactly that flow — its key from
the flow table, its token from the index, its handle from the socket
set — leaving every other flow, token, and handle untouched (the stack
flush in between is external I/O with no bookkeeping effect). -/
theorem c5_push_error_teardown (ops : TcpProxyOps H2) (o : MioOracle)
    (e : Engine H2) (token : Nat) (c : Connection) (st : ConnectionState H2)
    (msg : String)
    (htok : alookup e.token_to_connection token = some c)
    (hconn : alookup e.connections c = some st)
    (hr : o.readable = true)
    (hpush : ops.push_data st.handler .fromServer o.data = .error msg) :
    st.mio_stream ∈ (mio_socket_event ops o e token).shutdown_both ∧
    st.smoltcp_handle ∈ (mio_socket_event ops o e token).closed_sockets ∧
    alookup (mio_socket_event ops o e token).connections c = none ∧
    alookup (mio_socket_event ops o e token).token_to_connection st.token =
      none ∧
    st.smoltcp_handle ∉ (mio_socket_event ops o e token).sockets ∧
    (∀ c1, c1 ≠ c → alookup (mio_socket_event ops o e token).connections c1 =
      alookup e.connections c1) ∧
    (∀ t, t ≠ st.token →
      alookup (mio_socket_event ops o e token).token_to_connection t =
        alookup e.token_to_connection t) ∧
    (∀ hdl, hdl ≠ st.smoltcp_handle →
      (hdl ∈ (mio_socket_event ops o e token).sockets ↔ hdl ∈ e.sockets)) := by
  have hmi : mio_inner ops o e token c = .ok (remove_connection
      { e with shutdown_both := e.shutdown_both ++ [st.mio_stream],
               closed_sockets := e.closed_sockets ++ [st.smoltcp_handle] } c) := by
    unfold mio_inner
    simp only [hr, Bool.true_or, if_true]
    rw [hconn]
    dsimp only
    rw [hpush]
  have hres : mio_socket_event ops o e token = remove_connection
      { e with shutdown_both := e.shutdown_both ++ [st.mio_stream],
               closed_sockets := e.closed_sockets ++ [st.smoltcp_handle] } c := by
    unfold mio_socket_event
    rw [htok]
    dsimp only
    rw [hmi]
  rw [hres]
  have hconn2 : alookup (Engine.connections
      { e with shutdown_both := e.shutdown_both ++ [st.mio_stream],
               closed_sockets := e.closed_sockets ++ [st.smoltcp_handle] }) c =
      some st := hconn
  unfold remove_connection
  rw [hconn2]
  refine ⟨by simp, by simp, ?_, ?_, ?_, ?_, ?_, ?_⟩
  · exact alookup_eraseKey_self c e.connections
  · exact alookup_eraseKey_self st.token e.token_to_connection
  · simp [mem_eraseNat]
  · intro c1 hne
    exact alookup_eraseKey_ne hne e.connections
  · intro t hne
    exact alookup_eraseKey_ne hne e.token_to_connection
  · intro hdl hne
    simp [mem_eraseNat, hne]

theorem c5_push_error_teardown_witness :
    stW.mio_stream ∈ (mio_socket_event errOps mioOracle0 engineC4 3).shutdown_both ∧
    stW.smoltcp_handle ∈ (mio_socket_event errOps mioOracle0 engineC4 3).closed_sockets ∧
    alookup (mio_socket_event errOps mioOracle0 engineC4 3).connections
      frame28Conn = none ∧
    alookup (mio_socket_event errOps mioOracle0 engineC4 3).token_to_connection
      stW.token = none ∧
    stW.smoltcp_handle ∉ (mio_socket_event errOps mioOracle0 engineC4 3).sockets := by
  have T := c5_push_error_teardown errOps mioOracle0 engineC4 3 frame28Conn stW
    "bad" (by decide) (by decide) rfl rfl
  exact ⟨T.1, T.2.1, T.2.2.1, T.2.2.2.1, T.2.2.2.2.1⟩

theorem go_eq_find (mgrs : List (ConnectionManagerOps H2)) (c : Connection) :
    get_connection_manager.go mgrs c =
      List.find? (fun m => m.handles_connection c) mgrs := by
  induction mgrs with
  | nil => rfl
  | cons m rest ih =>
    by_cases hm : m.handles_connection c <;>
      simp [get_connection_manager.go, List.find?_cons, hm, ih]

/-- C6 (corrected): the upstream endpoint comes from the first manager, in
registration order, whose `handles_connection` accepts the resolved key
(`get_connection_manager` is literal first-match, and `receive_tun` passes
its `get_server` to the creation loop as the connect target); the handler,
however, comes from the first manager whose `new_connection` returns a
handler — the creation loop iterates over all managers without consulting
`handles_connection`, so the two selections can disagree. -/
theorem c6_first_match_selection :
    (∀ (e : Engine H2) (c : Connection),
      get_connection_manager e c =
        List.find? (fun m => m.handles_connection c) e.managers) ∧
    (∀ (mgrs : List (ConnectionManagerOps H2)) (resolved : Connection)
        (dst : Destination) (server : SocketAddr) (e e1 : Engine H2),
      createLoop mgrs resolved dst server e = .ok e1 →
        (firstAccept mgrs resolved = .ok none → e1 = e) ∧
        (∀ m h, firstAccept mgrs resolved = .ok (some (m, h)) →
          e1.connect_log = e.connect_log ++ [server] ∧
          ∃ st1, alookup e1.connections resolved = some st1 ∧
            st1.handler = h)) := by
  constructor
  · intro e c
    unfold get_connection_manager
    cases hm : e.managers with
    | nil => rfl
    | cons m rest =>
      dsimp only
      rw [go_eq_find]
  · intro mgrs resolved dst server e e1 h
    induction mgrs with
    | nil =>
      simp only [createLoop, Except.ok.injEq] at h
      subst h
      refine ⟨fun _ => rfl, fun m hh hfa => ?_⟩
      simp [firstAccept] at hfa
    | cons m rest ih =>
      unfold createLoop at h
      cases hm : m.new_connection resolved <;> rw [hm] at h
      · exact absurd h (by simp)
      · rename_i v
        cases v <;> dsimp only at h
        · have hrec := ih h
          refine ⟨fun hfa => ?_, fun m1 h1 hfa => ?_⟩
          · refine hrec.1 ?_
            simpa [firstAccept, hm] using hfa
          · refine hrec.2 m1 h1 ?_
            simpa [firstAccept, hm] using hfa
        · rename_i hh
          cases htf : SocketAddr.try_from dst <;> rw [htf] at h
          · exact absurd h (by simp)
          · dsimp only at h
            split_ifs at h <;> simp only [Except.ok.injEq, reduceCtorEq] at h
            refine ⟨fun hfa => ?_, fun m1 h1 hfa => ?_⟩
            · simp [firstAccept, hm] at hfa
            · have hmh : m = m1 ∧ hh = h1 := by
                simpa [firstAccept, hm] using hfa
              subst h
              constructor
              · dsimp only [new_token]
              · dsimp only [new_token]
                exact ⟨_, alookup_insertKey_self resolved _ _, by rw [← hmh.2]⟩

/-- C6 counterexample: with `mgr0` (declines by `handles_connection`,
accepts by `new_connection`) registered before `mgr1` (claims, accepts), a
SYN creates a flow whose proxy stream targets `mgr1`'s server but whose
handler is `mgr0`'s "h0" — not the handler of the first-match-by-claim
manager `mgr1`, refuting the claim as stated. -/
theorem c6_counterexample :
    (Except.toOption (receive_tun strOps oracle0 engineC6 synFrame)).map
        (fun e1 => ((alookup e1.connections connSyn).map (fun st => st.handler),
          e1.connect_log)) =
      some (some "h0", [mgr1.get_server]) ∧
    mgr0.handles_connection connSyn = false ∧
    mgr1.handles_connection connSyn = true ∧
    mgr1.new_connection connSyn = .ok (some "h1") ∧
    ("h0" : String) ≠ "h1" := by
  refine ⟨by decide, rfl, rfl, rfl, by decide⟩

theorem serverCloseReady_of_close {ops : TcpProxyOps H2}
    (st : ConnectionState H2)
    (hcs : st.close_state = 0 ∨ st.close_state = 2) :
    serverCloseReady ops st = false := by
  have h1 : (st.close_state &&& SERVER_WRITE_CLOSED == SERVER_WRITE_CLOSED) =
      false := by
    rcases hcs with h | h <;> rw [h] <;> decide
  simp [serverCloseReady, h1]

theorem check_keeps {ops : TcpProxyOps H2} {e : Engine H2} {c : Connection}
    {st : ConnectionState H2} (h : alookup e.connections c = some st)
    (hs : serverCloseReady ops st = false) :
    (check_change_close_state ops e c).connections = e.connections ∧
    (check_change_close_state ops e c).token_to_connection =
      e.token_to_connection ∧
    (check_change_close_state ops e c).sockets = e.sockets := by
  unfold check_change_close_state
  rw [h]
  dsimp only
  rw [hs]
  simp only [Bool.false_eq_true, if_false, Bool.false_and]
  split_ifs <;> exact ⟨rfl, rfl, rfl⟩

theorem tunsocket_created_entry {ops : TcpProxyOps H2} {o : TunOracle}
    {e : Engine H2} {c : Connection} {st : ConnectionState H2}
    (h : alookup e.connections c = some st) (hcs : st.close_state = 0) :
    ∃ st2, alookup (tunsocket_read_and_forward ops o e c).connections c =
        some st2 ∧
      st2.token = st.token ∧ (st2.close_state = 0 ∨ st2.close_state = 2) ∧
      (tunsocket_read_and_forward ops o e c).token_to_connection =
        e.token_to_connection := by
  unfold tunsocket_read_and_forward
  rw [h]
  dsimp only
  have hpresent : alookup (setConn e c (tunsocketStep ops o st)).connections c =
      some (tunsocketStep ops o st) := by
    simp [setConn, alookup_insertKey_self]
  have hcs2 : (tunsocketStep ops o st).close_state = 0 ∨
      (tunsocketStep ops o st).close_state = 2 := by
    dsimp only [tunsocketStep]
    rw [hcs]
    split_ifs <;> simp [CLIENT_WRITE_CLOSED]
  obtain ⟨hcc, hct, hsock⟩ := check_keeps hpresent (serverCloseReady_of_close _ hcs2)
  refine ⟨tunsocketStep ops o st, ?_, rfl, hcs2, ?_⟩
  · rw [hcc]
    exact hpresent
  · rw [hct]
    rfl

theorem interest_check_entry {ops : TcpProxyOps H2} {e : Engine H2}
    {c : Connection} {st1 : ConnectionState H2} {e2 : Engine H2}
    (hpresent : alookup e.connections c = some st1)
    (hs : serverCloseReady ops st1 = false)
    (hm : (match update_mio_socket_interest e c with
           | .error s => Except.error s
           | .ok e3 => Except.ok (check_change_close_state ops e3 c)) =
        Except.ok e2) :
    alookup e2.connections c = some st1 ∧
    e2.token_to_connection = e.token_to_connection := by
  obtain ⟨e3, hu, hc3, htc3, hreg⟩ := update_interest_spec hpresent
  rw [hu] at hm
  simp only [Except.ok.injEq] at hm
  subst hm
  have hl3 : alookup e3.connections c = some st1 := by
    rw [hc3]
    exact hpresent
  obtain ⟨hcc, hct, hcs⟩ := check_keeps hl3 hs
  constructor
  · rw [hcc]
    exact hl3
  · rw [hct, htc3]

theorem wts_entry {ops : TcpProxyOps H2} {wr : WriteResult} {e : Engine H2}
    {c : Connection} {st : ConnectionState H2}
    (h : alookup e.connections c = some st)
    (hcs : st.close_state = 0 ∨ st.close_state = 2) :
    ∀ e2, write_to_server ops wr e c = .ok e2 →
      ∃ st3, alookup e2.connections c = some st3 ∧ st3.token = st.token ∧
        e2.token_to_connection = e.token_to_connection := by
  intro e2 h2
  unfold write_to_server at h2
  rw [h] at h2
  dsimp only at h2
  split_ifs at h2 with hlen
  · have h3 := interest_check_entry
      (alookup_insertKey_self c { st with wait_write := false } e.connections)
      (serverCloseReady_of_close { st with wait_write := false }
        (by simpa using hcs)) h2
    exact ⟨_, h3.1, rfl, h3.2⟩
  · cases wr with
    | written n =>
      dsimp only at h2
      have h3 := interest_check_entry
        (alookup_insertKey_self c
          { st with
            handler := ops.consume_data st.handler .toServer n,
            wait_write :=
              decide (n < (ops.peek_data st.handler .toServer).length) }
          e.connections)
        (serverCloseReady_of_close
          { st with
            handler := ops.consume_data st.handler .toServer n,
            wait_write :=
              decide (n < (ops.peek_data st.handler .toServer).length) }
          (by simpa using hcs)) h2
      exact ⟨_, h3.1, rfl, h3.2⟩
    | wouldBlock =>
      dsimp only at h2
      have h3 := interest_check_entry
        (alookup_insertKey_self c { st with wait_write := true } e.connections)
        (serverCloseReady_of_close { st with wait_write := true }
          (by simpa using hcs)) h2
      exact ⟨_, h3.1, rfl, h3.2⟩
    | ioError msg => exact absurd h2 (by simp)

theorem postInject_entry {ops : TcpProxyOps H2} {o : TunOracle}
    {e : Engine H2} {c : Connection} {st : ConnectionState H2}
    (h : alookup e.connections c = some st) (hcs : st.close_state = 0) :
    ∃ st4, alookup (postInject ops o e c).connections c = some st4 ∧
      st4.token = st.token ∧
      (postInject ops o e c).token_to_connection = e.token_to_connection := by
  obtain ⟨st2, hl2, htk2, hcs2, hti2⟩ :=
    @tunsocket_created_entry H2 ops o e c st h hcs
  simp only [postInject]
  cases hw : write_to_server ops o.write_result
      (tunsocket_read_and_forward ops o e c) c
  · dsimp only
    exact ⟨st2, hl2, htk2, hti2⟩
  · dsimp only
    obtain ⟨st3, hl3, htk3, hti3⟩ := wts_entry hl2 hcs2 _ hw
    exact ⟨st3, hl3, htk3.trans htk2, hti3.trans hti2⟩

theorem createLoop_declined {mgrs : List (ConnectionManagerOps H2)}
    {resolved : Connection} {dst : Destination} {server : SocketAddr}
    {e : Engine H2} (hfa : firstAccept mgrs resolved = .ok none) :
    createLoop mgrs resolved dst server e = .ok e := by
  induction mgrs with
  | nil => rfl
  | cons m rest ih =>
    unfold createLoop
    unfold firstAccept at hfa
    cases hm : m.new_connection resolved <;> rw [hm] at hfa
    · exact absurd hfa (by simp)
    · rename_i v
      cases v <;> dsimp only at hfa ⊢
      · exact ih hfa
      · exact absurd hfa (by simp)

theorem postInject_untracked {ops : TcpProxyOps H2} {o : TunOracle}
    {e : Engine H2} {c : Connection} (h : alookup e.connections c = none) :
    postInject ops o e c = e := by
  have ht : tunsocket_read_and_forward ops o e c = e := by
    unfold tunsocket_read_and_forward
    rw [h]
  have hcheck : check_change_close_state ops e c = e := by
    unfold check_change_close_state
    rw [h]
  have hw : write_to_server ops o.write_result e c = .ok e := by
    unfold write_to_server
    rw [h]
    dsimp only
    rw [hcheck]
  simp only [postInject, ht, hw]

theorem createLoop_ok {mgrs : List (ConnectionManagerOps H2)}
    {resolved : Connection} {dst : Destination} {server : SocketAddr}
    (e : Engine H2) {m : ConnectionManagerOps H2} {h1 : H2}
    (hfa : firstAccept mgrs resolved = .ok (some (m, h1)))
    {dsa : SocketAddr} (htf : SocketAddr.try_from dst = .ok dsa)
    (hport : dsa.port ≠ 0) :
    ∃ e1, createLoop mgrs resolved dst server e = .ok e1 ∧
      (∃ st1, alookup e1.connections resolved = some st1 ∧
        st1.token = e.next_token ∧ st1.close_state = 0) ∧
      alookup e1.token_to_connection e.next_token = some resolved ∧
      e1.next_token = e.next_token + 1 := by
  induction mgrs with
  | nil => exact absurd hfa (by simp [firstAccept])
  | cons m0 rest ih =>
    unfold createLoop
    unfold firstAccept at hfa
    cases hm : m0.new_connection resolved <;> rw [hm] at hfa
    · exact absurd hfa (by simp)
    · rename_i v
      cases v <;> dsimp only at hfa ⊢
      · exact ih hfa
      · rw [htf]
        dsimp only
        rw [if_neg hport]
        dsimp only [new_token]
        exact ⟨_, rfl, ⟨_, alookup_insertKey_self resolved _ _, rfl, rfl⟩,
          alookup_insertKey_self _ resolved _, rfl⟩

/-- C3 (corrected): on a TCP frame, a new flow entry — handler, embedded
socket handle, fresh token, token-index binding — is inserted exactly
when the packet is a SYN without ACK, some manager handles the resolved
key, some manager's `new_connection` yields a handler, and the embedded
listen succeeds (destination port nonzero), regardless of whether the
5-tuple is already tracked (the source never checks); a non-SYN segment
with an untracked tuple is dropped leaving the engine unchanged, a frame
whose key no manager handles is dropped unchanged, and a SYN every
manager declines is dropped unchanged, with no token allocated. -/
theorem c3_flow_creation (ops : TcpProxyOps H2) (o : TunOracle)
    (e : Engine H2) (frame : List Nat) (conn : Connection) (fp : Bool)
    (off sz : Nat) (resolved : Connection)
    (hct : connection_tuple frame = some (conn, fp, off, sz))
    (hres : resolveConn e conn = .ok resolved)
    (hp : resolved.proto = .tcp) :
    (fp = false → alookup e.connections resolved = none →
      receive_tun ops o e frame = .ok e) ∧
    (get_connection_manager e resolved = none →
      receive_tun ops o e frame = .ok e) ∧
    (fp = true → firstAccept e.managers resolved = .ok none →
      alookup e.connections resolved = none →
      receive_tun ops o e frame = .ok e) ∧
    (fp = true → ∀ cm, get_connection_manager e resolved = some cm →
      ∀ m h1, firstAccept e.managers resolved = .ok (some (m, h1)) →
      ∀ dsa, SocketAddr.try_from conn.dst = .ok dsa → dsa.port ≠ 0 →
      ∃ e1, receive_tun ops o e frame = .ok e1 ∧
        (∃ st1, alookup e1.connections resolved = some st1 ∧
          st1.token = e.next_token) ∧
        alookup e1.token_to_connection e.next_token = some resolved ∧
        e1.next_token = e.next_token + 1) := by
  refine ⟨?_, ?_, ?_, ?_⟩
  · intro hfp huntracked
    unfold receive_tun
    rw [hct]
    dsimp only
    rw [hres]
    dsimp only
    rw [if_pos hp]
    cases hcm : get_connection_manager e resolved
    · rfl
    · dsimp only
      subst hfp
      rw [if_neg (by simp)]
      rw [huntracked]
      rfl
  · intro hcm
    unfold receive_tun
    rw [hct]
    dsimp only
    rw [hres]
    dsimp only
    rw [if_pos hp, hcm]
  · intro hfp hfa huntracked
    unfold receive_tun
    rw [hct]
    dsimp only
    rw [hres]
    dsimp only
    rw [if_pos hp]
    cases hcm : get_connection_manager e resolved
    · rfl
    · dsimp only
      subst hfp
      rw [if_pos rfl, createLoop_declined hfa]
      dsimp only
      rw [postInject_untracked huntracked]
  · intro hfp cm hcm m h1 hfa dsa htf hport
    obtain ⟨e1c, hcl, hentry, htokidx, hnt⟩ :=
      @createLoop_ok H2 e.managers resolved conn.dst cm.get_server e m h1 hfa
        dsa htf hport
    unfold receive_tun
    rw [hct]
    dsimp only
    rw [hres]
    dsimp only
    rw [if_pos hp, hcm]
    dsimp only
    subst hfp
    rw [if_pos rfl, hcl]
    dsimp only
    obtain ⟨st1, hl1, htk1, hcs1⟩ := hentry
    obtain ⟨st4, hl4, htk4, hti4⟩ := postInject_entry hl1 hcs1
    refine ⟨postInject ops o e1c resolved, rfl, ⟨st4, hl4, htk4.trans htk1⟩,
      ?_, ?_⟩
    · rw [hti4]
      exact htokidx
    · rw [next_token_postInject, hnt]

/-- C3 counterexample: with a single always-claiming manager, two
identical SYNs for the same 5-tuple each run the creation path: after the
first, the tuple is tracked; the second still allocates a fresh token
(counter 4 → 5) and replaces the entry (stored token becomes 4), so a
flow is created although the 5-tuple was already tracked, refuting the
"only for a 5-tuple not currently tracked" part of the claim. -/
theorem c3_counterexample :
    ((receive_tun unitOps oracle0 engineC3 synFrame).toOption.bind
      (fun e1 => (receive_tun unitOps oracle0 e1 synFrame).toOption.map
        (fun e2 => ((alookup e1.connections connSyn).isSome,
          e1.next_token, e2.next_token,
          (alookup e2.connections connSyn).map (fun st => st.token))))) =
      some (true, 4, 5, some 4) := by
  decide

theorem c3_flow_creation_witness :
    receive_tun unitOps oracle0 engineC3 ackFrame = .ok engineC3 :=
  (c3_flow_creation unitOps oracle0 engineC3 ackFrame connSyn false 40 20
    connSyn (by decide) rfl (by decide)).1 rfl (by decide)

theorem c6_first_match_selection_witness :
    get_connection_manager engineC6 connSyn =
      List.find? (fun m => m.handles_connection connSyn) engineC6.managers ∧
    c6CreateResult.connect_log = engineC6.connect_log ++ [mgr1.get_server] ∧
    (alookup c6CreateResult.connections connSyn).map (fun st => st.handler) =
      some "h0" := by
  have T := (c6_first_match_selection.2 [mgr0, mgr1] connSyn connSyn.dst
    mgr1.get_server engineC6 c6CreateResult rfl).2 mgr0 "h0" rfl
  obtain ⟨hlog, st1, hl, hh⟩ := T
  refine ⟨c6_first_match_selection.1 engineC6 connSyn, hlog, ?_⟩
  rw [hl]
  simp [hh]

theorem tokenInvB_congr {e e1 : Engine H2} (h1 : e1.connections = e.connections)
    (h2 : e1.token_to_connection = e.token_to_connection) :
    tokenInvB e1 = tokenInvB e := by
  unfold tokenInvB tokenInvP
  rw [h1, h2]

theorem update_interest_fields {e : Engine H2} {c : Connection} {e3 : Engine H2}
    (hu : update_mio_socket_interest e c = .ok e3) :
    e3.connections = e.connections ∧
    e3.token_to_connection = e.token_to_connection := by
  unfold update_mio_socket_interest at hu
  cases halo : alookup e.connections c <;> rw [halo] at hu
  · exact absurd hu (by simp)
  · dsimp only at hu
    split_ifs at hu <;> simp only [Except.ok.injEq] at hu <;> rw [← hu] <;>
      exact ⟨rfl, rfl⟩

theorem tokenInvB_remove {e : Engine H2} (c : Connection)
    (h : tokenInvB e = true) : tokenInvB (remove_connection e c) = true := by
  cases halo : alookup e.connections c with
  | none => rwa [remove_connection_not_tracked halo]
  | some st =>
    unfold remove_connection
    rw [halo]
    dsimp only
    unfold tokenInvB at h ⊢
    rw [List.all_eq_true] at h ⊢
    intro p hp
    rw [mem_eraseKey] at hp
    obtain ⟨hpmem, hpne⟩ := hp
    have h2 := h p hpmem
    unfold tokenInvP at h2 ⊢
    cases halo2 : alookup e.connections p.2 with
    | none =>
      rw [halo2] at h2
      exact absurd h2 (by simp)
    | some st2 =>
      rw [halo2] at h2
      have hne : p.2 ≠ c := by
        intro hc
        rw [hc, halo] at halo2
        simp only [Option.some.injEq] at halo2
        simp only [beq_iff_eq] at h2
        exact hpne (by rw [← h2, halo2])
      rw [alookup_eraseKey_ne hne, halo2]
      exact h2

theorem tokenInvB_setConn {e : Engine H2} {c : Connection}
    {st : ConnectionState H2} (halo : alookup e.connections c = some st)
    (st1 : ConnectionState H2) (htok : st1.token = st.token)
    (h : tokenInvB e = true) : tokenInvB (setConn e c st1) = true := by
  unfold tokenInvB at h ⊢
  rw [List.all_eq_true] at h ⊢
  intro p hp
  have h2 := h p hp
  unfold tokenInvP at h2 ⊢
  dsimp only [setConn] at h2 ⊢
  by_cases hc : p.2 = c
  · rw [hc, alookup_insertKey_self]
    rw [hc, halo] at h2
    simp only [beq_iff_eq] at h2 ⊢
    rw [htok, h2]
  · rw [alookup_insertKey_ne hc]
    exact h2

theorem tokenInvB_check {ops : TcpProxyOps H2} {e : Engine H2} (c : Connection)
    (h : tokenInvB e = true) :
    tokenInvB (check_change_close_state ops e c) = true := by
  unfold check_change_close_state
  cases halo : alookup e.connections c with
  | none => exact h
  | some st =>
    dsimp only
    split_ifs <;> first | exact tokenInvB_remove c h | exact h

theorem tokenInvB_interest_check {ops : TcpProxyOps H2} {e : Engine H2}
    {c : Connection} {e2 : Engine H2}
    (hm : (match update_mio_socket_interest e c with
           | .error s => Except.error s
           | .ok e3 => Except.ok (check_change_close_state ops e3 c)) =
        Except.ok e2)
    (h : tokenInvB e = true) : tokenInvB e2 = true := by
  cases hu : update_mio_socket_interest e c <;> rw [hu] at hm <;>
    simp only [Except.ok.injEq, reduceCtorEq] at hm
  subst hm
  obtain ⟨h1, h2⟩ := update_interest_fields hu
  exact tokenInvB_check c (by rw [tokenInvB_congr h1 h2]; exact h)

theorem tokenInvB_write_to_server {ops : TcpProxyOps H2} {wr : WriteResult}
    {e : Engine H2} {c : Connection} {e2 : Engine H2}
    (hw : write_to_server ops wr e c = .ok e2) (h : tokenInvB e = true) :
    tokenInvB e2 = true := by
  unfold write_to_server at hw
  cases halo : alookup e.connections c <;> rw [halo] at hw <;> dsimp only at hw
  · simp only [Except.ok.injEq] at hw
    subst hw
    exact tokenInvB_check c h
  · rename_i st
    split_ifs at hw with hlen
    · exact tokenInvB_interest_check hw
        (tokenInvB_setConn halo { st with wait_write := false } rfl h)
    · cases wr <;> dsimp only at hw
      · rename_i n
        exact tokenInvB_interest_check hw
          (tokenInvB_setConn halo
            { st with
              handler := ops.consume_data st.handler .toServer n,
              wait_write :=
                decide (n < (ops.peek_data st.handler .toServer).length) }
            rfl h)
      · exact tokenInvB_interest_check hw
          (tokenInvB_setConn halo { st with wait_write := true } rfl h)
      · exact absurd hw (by simp)

theorem tokenInvB_tunsocket {ops : TcpProxyOps H2} {o : TunOracle}
    {e : Engine H2} (c : Connection) (h : tokenInvB e = true) :
    tokenInvB (tunsocket_read_and_forward ops o e c) = true := by
  unfold tunsocket_read_and_forward
  cases halo : alookup e.connections c
  · exact h
  · dsimp only
    exact tokenInvB_check c (tokenInvB_setConn halo _ rfl h)

theorem tokenInvB_postInject {ops : TcpProxyOps H2} {o : TunOracle}
    {e : Engine H2} (c : Connection) (h : tokenInvB e = true) :
    tokenInvB (postInject ops o e c) = true := by
  simp only [postInject]
  cases hw : write_to_server ops o.write_result
      (tunsocket_read_and_forward ops o e c) c
  · dsimp only
    exact tokenInvB_tunsocket c h
  · dsimp only
    exact tokenInvB_write_to_server hw (tokenInvB_tunsocket c h)

theorem tokenInvB_udpPath (e : Engine H2) (dst : Destination)
    (frame : List Nat) (off sz : Nat) (h : tokenInvB e = true) :
    tokenInvB (udpPath e dst frame off sz) = true := by
  unfold udpPath
  cases e.virtdns
  · exact h
  · dsimp only
    rename_i vd
    cases vd.receive_query ((frame.drop off).take sz)
    · exact h
    · dsimp only
      cases SocketAddr.try_from dst
      · exact h
      · dsimp only
        split_ifs <;> exact h

theorem tokenInvB_createLoop {mgrs : List (ConnectionManagerOps H2)}
    {resolved : Connection} {dst : Destination} {server : SocketAddr}
    {e e2 : Engine H2} (hcl : createLoop mgrs resolved dst server e = .ok e2)
    (huntracked : alookup e.connections resolved = none)
    (h : tokenInvB e = true) : tokenInvB e2 = true := by
  induction mgrs with
  | nil =>
    simp only [createLoop, Except.ok.injEq] at hcl
    subst hcl
    exact h
  | cons m rest ih =>
    unfold createLoop at hcl
    cases hm : m.new_connection resolved <;> rw [hm] at hcl
    · exact absurd hcl (by simp)
    · rename_i v
      cases v <;> dsimp only at hcl
      · exact ih hcl
      · cases htf : SocketAddr.try_from dst <;> rw [htf] at hcl
        · exact absurd hcl (by simp)
        · dsimp only at hcl
          split_ifs at hcl <;> simp only [Except.ok.injEq, reduceCtorEq] at hcl
          subst hcl
          unfold tokenInvB at h ⊢
          rw [List.all_eq_true] at h ⊢
          intro p hp
          unfold tokenInvP at *
          dsimp only [new_token] at hp ⊢
          simp only [insertKey] at hp
          rcases List.mem_cons.mp hp with hp | hp
          · subst hp
            dsimp only
            rw [alookup_insertKey_self]
            simp
          · rw [mem_eraseKey] at hp
            obtain ⟨hmem, hne⟩ := hp
            have h2 := h p hmem
            cases halo2 : alookup e.connections p.2
            · rw [halo2] at h2
              exact absurd h2 (by simp)
            · rw [halo2] at h2
              have hner : p.2 ≠ resolved := by
                intro hr
                rw [hr, huntracked] at halo2
                exact absurd halo2 (by simp)
              rw [alookup_insertKey_ne hner, halo2]
              exact h2

theorem tokenInvB_receive_tun {ops : TcpProxyOps H2} {o : TunOracle}
    {e : Engine H2} {frame : List Nat} {e1 : Engine H2} {conn : Connection}
    {fp : Bool} {off sz : Nat} {resolved : Connection}
    (hrt : receive_tun ops o e frame = .ok e1)
    (hct : connection_tuple frame = some (conn, fp, off, sz))
    (hres : resolveConn e conn = .ok resolved)
    (hfresh : fp = true → alookup e.connections resolved = none)
    (h : tokenInvB e = true) : tokenInvB e1 = true := by
  unfold receive_tun at hrt
  rw [hct] at hrt
  dsimp only at hrt
  rw [hres] at hrt
  dsimp only at hrt
  by_cases hp : resolved.proto = IpProtocol.tcp
  · rw [if_pos hp] at hrt
    cases hcm : get_connection_manager e resolved <;> rw [hcm] at hrt
    · simp only [Except.ok.injEq] at hrt
      subst hrt
      exact h
    · dsimp only at hrt
      by_cases hfp : fp = true
      · rw [if_pos hfp] at hrt
        cases hcl : createLoop e.managers resolved conn.dst _ e <;>
          rw [hcl] at hrt
        · simp only [Except.ok.injEq] at hrt
          subst hrt
          exact h
        · simp only [Except.ok.injEq] at hrt
          subst hrt
          exact tokenInvB_postInject _
            (tokenInvB_createLoop hcl (hfresh hfp) h)
      · rw [if_neg hfp] at hrt
        split_ifs at hrt <;> simp only [Except.ok.injEq] at hrt <;> subst hrt
        · exact tokenInvB_postInject _ h
        · exact h
  · rw [if_neg hp] at hrt
    split_ifs at hrt <;> simp only [Except.ok.injEq] at hrt <;> subst hrt
    · exact tokenInvB_udpPath _ _ _ _ _ h
    · exact h

theorem tokenInvB_write_to_client (ops : TcpProxyOps H2)
    (steps : List WtcStep) :
    ∀ (e : Engine H2) (token : Nat) (c : Connection), tokenInvB e = true →
      tokenInvB (write_to_client ops steps e token c) = true := by
  induction steps with
  | nil =>
    intro e token c h
    exact h
  | cons s rest ih =>
    intro e token c h
    unfold write_to_client
    cases halo : alookup e.connections c
    · exact h
    · rename_i st
      dsimp only
      split_ifs
      · exact tokenInvB_setConn halo _ rfl h
      · exact tokenInvB_setConn halo _ rfl h
      · exact ih _ _ _ (tokenInvB_check _ (tokenInvB_setConn halo _ rfl h))
      · exact h

theorem tokenInvB_interest_check2 {ops : TcpProxyOps H2} {e : Engine H2}
    {c : Connection} {e4 : Engine H2}
    (hm : (match update_mio_socket_interest e c with
           | .error _ => Except.error e
           | .ok e3 => Except.ok (check_change_close_state ops e3 c)) =
        Except.ok e4)
    (h : tokenInvB e = true) : tokenInvB e4 = true := by
  cases hu : update_mio_socket_interest e c <;> rw [hu] at hm <;>
    simp only [Except.ok.injEq, reduceCtorEq] at hm
  subst hm
  obtain ⟨h1, h2⟩ := update_interest_fields hu
  exact tokenInvB_check c (by rw [tokenInvB_congr h1 h2]; exact h)

theorem tokenInvB_mioRead2 {ops : TcpProxyOps H2} {o : MioOracle}
    {e1 : Engine H2} {c : Connection} {st1 : ConnectionState H2}
    (halo : alookup e1.connections c = some st1) (h : tokenInvB e1 = true) :
    (∀ e4, mioRead2 ops o e1 c st1 = .ok e4 → tokenInvB e4 = true) ∧
    (∀ e4, mioRead2 ops o e1 c st1 = .error e4 → tokenInvB e4 = true) := by
  simp only [mioRead2]
  split_ifs
  · constructor <;> intro e4 hm
    · exact tokenInvB_interest_check2 hm (tokenInvB_setConn halo _ rfl h)
    · split at hm
      · simp only [Except.error.injEq] at hm
        subst hm
        exact tokenInvB_setConn halo _ rfl h
      · simp only [reduceCtorEq] at hm
  · constructor <;> intro e4 hm
    · simp only [Except.ok.injEq] at hm
      subst hm
      exact h
    · simp only [reduceCtorEq] at hm

theorem tokenInvB_mioForward {ops : TcpProxyOps H2} {o : MioOracle}
    {e4 : Engine H2} {token : Nat} {c : Connection} (h : tokenInvB e4 = true) :
    (∀ e6, mioForward ops o e4 token c = .ok e6 → tokenInvB e6 = true) ∧
    (∀ e6, mioForward ops o e4 token c = .error e6 → tokenInvB e6 = true) := by
  have h5 : tokenInvB (write_to_client ops o.wtc_steps e4 token c) = true :=
    tokenInvB_write_to_client ops o.wtc_steps e4 token c h
  simp only [mioForward]
  cases hw1 : write_to_server ops o.write_result1
      (write_to_client ops o.wtc_steps e4 token c) c <;> constructor <;>
    intro e6 hm <;> dsimp only at hm
  · exact absurd hm (by simp)
  · simp only [Except.error.injEq] at hm
    subst hm
    exact h5
  · rename_i ea
    have h6 : tokenInvB ea = true := tokenInvB_write_to_server hw1 h5
    split_ifs at hm
    · cases hw2 : write_to_server ops o.write_result2 ea c <;> rw [hw2] at hm <;>
        simp only [Except.ok.injEq, reduceCtorEq] at hm
      subst hm
      exact tokenInvB_write_to_server hw2 h6
    · simp only [Except.ok.injEq] at hm
      subst hm
      exact h6
  · rename_i ea
    have h6 : tokenInvB ea = true := tokenInvB_write_to_server hw1 h5
    split_ifs at hm
    · cases hw2 : write_to_server ops o.write_result2 ea c <;> rw [hw2] at hm <;>
        simp only [Except.error.injEq, reduceCtorEq] at hm
      subst hm
      exact h6

theorem tokenInvB_mio_inner {ops : TcpProxyOps H2} {o : MioOracle}
    {e : Engine H2} {token : Nat} {c : Connection} (h : tokenInvB e = true) :
    (∀ e1, mio_inner ops o e token c = .ok e1 → tokenInvB e1 = true) ∧
    (∀ e1, mio_inner ops o e token c = .error e1 → tokenInvB e1 = true) := by
  simp only [mio_inner]
  split_ifs
  · cases halo : alookup e.connections c <;> constructor <;> intro e1 hm <;>
      dsimp only at hm
    · exact absurd hm (by simp)
    · simp only [Except.error.injEq] at hm
      subst hm
      exact h
    · rename_i st
      cases hpd : ops.push_data st.handler .fromServer o.data <;> rw [hpd] at hm
          <;> dsimp only at hm
      · simp only [Except.ok.injEq] at hm
        subst hm
        exact tokenInvB_remove c h
      · rename_i h1
        split at hm
        · simp only [reduceCtorEq] at hm
        · rename_i e4 hme
          have hinner := (tokenInvB_mioRead2
            (alookup_insertKey_self c { st with handler := h1 } e.connections)
            (tokenInvB_setConn halo { st with handler := h1 } rfl h)).1 e4 hme
          exact (tokenInvB_mioForward hinner).1 e1 hm
    · rename_i st
      cases hpd : ops.push_data st.handler .fromServer o.data <;> rw [hpd] at hm
          <;> dsimp only at hm
      · simp only [reduceCtorEq] at hm
      · rename_i h1
        split at hm
        · rename_i ee hme
          simp only [Except.error.injEq] at hm
          subst hm
          exact (tokenInvB_mioRead2
            (alookup_insertKey_self c { st with handler := h1 } e.connections)
            (tokenInvB_setConn halo { st with handler := h1 } rfl h)).2 _ hme
        · rename_i e4 hme
          have hinner := (tokenInvB_mioRead2
            (alookup_insertKey_self c { st with handler := h1 } e.connections)
            (tokenInvB_setConn halo { st with handler := h1 } rfl h)).1 e4 hme
          exact (tokenInvB_mioForward hinner).2 e1 hm
  · constructor <;> intro e1 hm
    · cases hw : write_to_server ops o.write_result2 e c <;> rw [hw] at hm <;>
        simp only [Except.ok.injEq, reduceCtorEq] at hm
      subst hm
      exact tokenInvB_write_to_server hw h
    · cases hw : write_to_server ops o.write_result2 e c <;> rw [hw] at hm <;>
        simp only [Except.error.injEq, reduceCtorEq] at hm
      subst hm
      exact h
  · constructor <;> intro e1 hm
    · simp only [Except.ok.injEq] at hm
      subst hm
      exact h
    · simp only [reduceCtorEq] at hm

theorem tokenInvB_mio_socket_event (ops : TcpProxyOps H2) (o : MioOracle)
    (e : Engine H2) (token : Nat) (h : tokenInvB e = true) :
    tokenInvB (mio_socket_event ops o e token) = true := by
  unfold mio_socket_event
  cases halo : alookup e.token_to_connection token <;> dsimp only
  · exact h
  · rename_i c
    cases hi : mio_inner ops o e token c <;> dsimp only
    · exact tokenInvB_remove c ((tokenInvB_mio_inner h).2 _ hi)
    · exact (tokenInvB_mio_inner h).1 _ hi

/-- C1 (corrected): the token-index invariant — every token in the
token→connection index maps to a flow-table key whose stored token is
that token — is preserved by `remove_connection`,
`check_change_close_state`, `write_to_server`,
`tunsocket_read_and_forward`, `mio_socket_event`, and by `receive_tun`
provided a SYN's resolved 5-tuple is not already tracked.  Processing a
SYN for an already-tracked 5-tuple breaks it: the replaced entry's token
stays in the index while the stored token is the fresh one. -/
theorem c1_token_index_invariant :
    (∀ (e : Engine H2) (c : Connection), tokenInvB e = true →
        tokenInvB (remove_connection e c) = true) ∧
    (∀ (ops : TcpProxyOps H2) (e : Engine H2) (c : Connection),
        tokenInvB e = true →
        tokenInvB (check_change_close_state ops e c) = true) ∧
    (∀ (ops : TcpProxyOps H2) (wr : WriteResult) (e e2 : Engine H2)
        (c : Connection), write_to_server ops wr e c = .ok e2 →
        tokenInvB e = true → tokenInvB e2 = true) ∧
    (∀ (ops : TcpProxyOps H2) (o : TunOracle) (e : Engine H2) (c : Connection),
        tokenInvB e = true →
        tokenInvB (tunsocket_read_and_forward ops o e c) = true) ∧
    (∀ (ops : TcpProxyOps H2) (o : MioOracle) (e : Engine H2) (token : Nat),
        tokenInvB e = true →
        tokenInvB (mio_socket_event ops o e token) = true) ∧
    (∀ (ops : TcpProxyOps H2) (o : TunOracle) (e e1 : Engine H2)
        (frame : List Nat) (conn : Connection) (fp : Bool) (off sz : Nat)
        (resolved : Connection),
        receive_tun ops o e frame = .ok e1 →
        connection_tuple frame = some (conn, fp, off, sz) →
        resolveConn e conn = .ok resolved →
        (fp = true → alookup e.connections resolved = none) →
        tokenInvB e = true → tokenInvB e1 = true) :=
  ⟨fun _ c h => tokenInvB_remove c h,
   fun _ _ c h => tokenInvB_check c h,
   fun _ _ _ _ _ hw h => tokenInvB_write_to_server hw h,
   fun _ _ _ c h => tokenInvB_tunsocket c h,
   fun ops o e token h => tokenInvB_mio_socket_event ops o e token h,
   fun _ _ _ _ _ _ _ _ _ _ hrt hct hres hfresh h =>
     tokenInvB_receive_tun hrt hct hres hfresh h⟩

/-- C1 counterexample: in the concrete double-SYN run, the invariant
holds after the first SYN but is broken by the second SYN for the same,
already-tracked 5-tuple — the stale token 3 still maps to the key while
the stored token is 4. -/
theorem c1_counterexample :
    ((receive_tun unitOps oracle0 engineC3 synFrame).toOption.bind
      (fun e1 => (receive_tun unitOps oracle0 e1 synFrame).toOption.map
        (fun e2 => (tokenInvB e1, tokenInvB e2)))) = some (true, false) := by
  decide

theorem c1_token_index_invariant_witness :
    tokenInvB (remove_connection engineC4 frame28Conn) = true ∧
    tokenInvB (mio_socket_event errOps mioOracle0 engineC4 3) = true :=
  ⟨c1_token_index_invariant.1 engineC4 frame28Conn (by decide),
   c1_token_index_invariant.2.2.2.2.1 errOps mioOracle0 engineC4 3 (by decide)⟩

end T2P
